import Mathlib

/-!
Verification of the mankey flashcard importer.

The repository extracts flashcards from markdown documents and synchronizes
them with an external Anki store.  It contains two parallel implementations:
the `mankey` package (`shared_flashcard.py`, `cloze_flashcard.py`,
`remnote_flashcard.py`, `anki_connector.py`, ...) and the standalone script
`update_flashcards.py`.

Embedding conventions:
  * Python `str` is modeled as `List Char` (named `Str` below); string
    indexing, slicing, `split`, `replace`, `count`, `strip` are embedded as
    executable list functions mirroring CPython semantics for the non-empty
    patterns the source uses.
  * The regular expressions of the source are small and anchored; each is
    embedded as an executable scanner whose doc comment names the regex.
  * Remote I/O (`urllib` round trips) is modeled by response values supplied
    as explicit parameters; the external markdown renderer is an explicit
    function parameter.  Side-effect order (remote calls versus file writes)
    is captured by explicit event traces.
  * Fallible code (Python exceptions) returns `Option`/`Except`.
-/

namespace Mankey

/-- Python strings are modeled as lists of characters. -/
abbrev Str := List Char

/-- Whitespace as tested by Python `str.strip()` (the characters occurring in
the repository's data: space, tab, carriage return, newline). -/
def isSpaceChar (c : Char) : Bool := c.isWhitespace

/-- Python `s.strip()`: remove whitespace from both ends. -/
def trim (s : Str) : Str :=
  ((s.dropWhile isSpaceChar).reverse.dropWhile isSpaceChar).reverse

/-- Python `pat in s` (substring containment). -/
def isSubstr (pat : Str) : Str → Bool
  | [] => pat.isEmpty
  | c :: rest => pat.isPrefixOf (c :: rest) || isSubstr pat rest

/-- Python `s.replace(old, new, 1)`: replace the leftmost occurrence of
`pat` (non-empty in all uses) by `rep`; unchanged when absent. -/
def replaceFirst (s pat rep : Str) : Str :=
  match s with
  | [] => []
  | c :: rest =>
    if pat.isPrefixOf (c :: rest) then rep ++ (c :: rest).drop pat.length
    else c :: replaceFirst rest pat rep

/-- Helper for `countOcc`: scan with a skip counter so that counting is
greedy and non-overlapping, exactly like Python `str.count`. -/
def countOccAux (pat : Str) : Str → Nat → Nat
  | [], _ => 0
  | c :: rest, 0 =>
    if pat.isPrefixOf (c :: rest) then 1 + countOccAux pat rest (pat.length - 1)
    else countOccAux pat rest 0
  | _ :: rest, k+1 => countOccAux pat rest k

/-- Python `s.count(pat)` for non-empty `pat`: number of non-overlapping
occurrences, scanning left to right. -/
def countOcc (s pat : Str) : Nat := countOccAux pat s 0

/-- Helper for `splitOnSep` (fuel = length of the remaining input). -/
def splitOnAux (sep : Str) : Nat → Str → Str → List Str
  | 0, s, acc => [acc.reverse ++ s]
  | _+1, [], acc => [acc.reverse]
  | f+1, c :: rest, acc =>
    if sep.isPrefixOf (c :: rest) then
      acc.reverse :: splitOnAux sep f (rest.drop (sep.length - 1)) []
    else splitOnAux sep f rest (c :: acc)

/-- Python `s.split(sep)` for non-empty `sep`: greedy left-to-right split on
non-overlapping occurrences of the separator. -/
def splitOnSep (s sep : Str) : List Str := splitOnAux sep s.length s []

/-- Numeric value of a decimal digit character. -/
def digitVal (c : Char) : Nat := c.toNat - 48

/-- Numeric value of a decimal digit string, as computed by Python `int(...)`
on a string of digits. -/
def digitsVal (s : Str) : Nat := s.foldl (fun a c => 10 * a + digitVal c) 0

/-- Helper for `natRepr` (fuel-based so that it is structurally recursive). -/
def reprAux : Nat → Nat → Str
  | 0, _ => []
  | f+1, n => if n < 10 then [Nat.digitChar n] else reprAux f (n / 10) ++ [Nat.digitChar (n % 10)]

/-- Decimal representation of a natural number, as produced by Python
`str(i)` / f-string interpolation of a non-negative `int`. -/
def natRepr (n : Nat) : Str := reprAux (n + 1) n

/-! ### Marker codec -/

/-- The marker text `^anki-<id>` interpolated by the source's f-strings
(`f"^anki-{anki_id}"`). -/
def ankiTag (id : Nat) : Str := ("^anki-").toList ++ natRepr id

/-- Embeds `re.search(r"\^anki-(\d{13})$", s)` together with
`re.sub(r"\^anki-(\d{13})$", "", s)`.  The pattern is anchored at the end
and has fixed width 19 (`^anki-` plus exactly 13 digits), so a match exists
iff the last 19 characters have that shape, and substitution removes exactly
those 19 characters. -/
def endMarkerSplit (s : Str) : Str × Option Nat :=
  if s.length < 19 then (s, none)
  else if (("^anki-").toList.isPrefixOf (s.drop (s.length - 19)))
      && ((s.drop (s.length - 19)).drop 6).all (fun c => c.isDigit) then
    (s.take (s.length - 19), some (digitsVal ((s.drop (s.length - 19)).drop 6)))
  else (s, none)

/-- `SharedFlashcard.split_anki_id` (src/mankey/shared_flashcard.py, lines
81-101): extract the trailing `^anki-<13 digits>` marker, if any, and remove
it from the answer. -/
def split_anki_id (answer : Str) : Str × Option Nat := endMarkerSplit answer

/-- `BaseFlashcard.get_anki_id_from_line` (src/update_flashcards.py, lines
270-275): same end-anchored regex, extraction only. -/
def get_anki_id_from_line (s : Str) : Option Nat := (endMarkerSplit s).2

/-- Embeds `re.search(r"^\^anki-(\d{13})$", line)`: the whole line is the
marker `^anki-` followed by exactly 13 digits. -/
def markerLineId (line : Str) : Option Nat :=
  if (("^anki-").toList.isPrefixOf line) && line.length == 19
      && (line.drop 6).all (fun c => c.isDigit) then
    some (digitsVal (line.drop 6))
  else none

/-- `BaseSingleLineFlashcard.new_line_content` (src/update_flashcards.py,
lines 316-325).  `none` models `raise_if_anki_id_not_defined` firing on a
falsy (absent/zero) id.  Appends ` ^anki-<id>` unless the line already ends
with exactly that text. -/
def new_line_content (line : Str) (ankiId : Nat) : Option Str :=
  if ankiId = 0 then none
  else if (' ' :: ankiTag ankiId).isSuffixOf line then some line
  else some (line ++ ' ' :: ankiTag ankiId)

/-- `BaseMultiLineFlashcard.new_line_content` (src/update_flashcards.py,
lines 355-367): append the marker to the span's last line, or on a fresh
line when the last line (stripped) closes a fenced code block; no-op when
the marker for this id is already present inline or on the following line. -/
def multiline_new_line_content (fileLines : List Str) (answerEndLine : Nat) (ankiId : Nat) :
    Option Str :=
  if ankiId = 0 then none
  else
    let cur := fileLines.getD answerEndLine []
    if !((' ' :: ankiTag ankiId).isSuffixOf cur)
        && !(decide (fileLines.length > answerEndLine + 1)
              && (fileLines.getD (answerEndLine + 1) [] == ankiTag ankiId)) then
      if ("```").toList.isSuffixOf (trim cur) then some (cur ++ '\n' :: ankiTag ankiId)
      else some (cur ++ ' ' :: ankiTag ankiId)
    else some cur

/-- `BaseMultiLineFlashcard.get_multiline_anki_id` (src/update_flashcards.py,
lines 336-348): prefer a marker at the end of the span's last line; only
when the last line carries none, look at the following line, which must
consist solely of a marker. -/
def get_multiline_anki_id (fileLines : List Str) (answerEndLine : Nat) : Option Nat :=
  match (endMarkerSplit (fileLines.getD answerEndLine [])).2 with
  | some n => some n
  | none =>
    if fileLines.length > answerEndLine + 1 then
      markerLineId (fileLines.getD (answerEndLine + 1) [])
    else none

/-! ### Text transform pipeline -/

/-- Whether the unanchored pattern `\^anki-\d{13}` matches at the head of
`s` (used by `strip_anki_id`, which substitutes every occurrence). -/
def ankiMarkerAt (s : Str) : Bool :=
  (("^anki-").toList.isPrefixOf s) && ((s.drop 6).take 13).length == 13
    && ((s.drop 6).take 13).all (fun c => c.isDigit)

/-- Helper for `strip_anki_id` (fuel = length of the input). -/
def stripAnkiIdAux : Nat → Str → Str
  | 0, s => s
  | _+1, [] => []
  | f+1, c :: rest =>
    if ankiMarkerAt (c :: rest) then stripAnkiIdAux f (rest.drop 18)
    else c :: stripAnkiIdAux f rest

/-- `BaseFlashcard.strip_anki_id` (src/update_flashcards.py, lines 288-290):
`re.sub(r"\^anki-\d{13}", "", text)` — remove every (unanchored) marker. -/
def strip_anki_id (s : Str) : Str := stripAnkiIdAux s.length s

/-- Helper for `format_math`: lazy search for the end of a math span.  `acc`
is the reversed content so far (its head is the last consumed character).
The span closes at the first `$` preceded by a non-space character; `.` does
not match a newline, so the search fails on reaching one (or the end). -/
def mathEndAux : Nat → Str → Str → Option (Str × Str)
  | 0, _, _ => none
  | f+1, acc, s =>
    match s with
    | [] => none
    | c :: rest =>
      if c == '$' && !isSpaceChar (acc.headD ' ') then some (acc.reverse, rest)
      else if c == '\n' then none
      else mathEndAux f (c :: acc) rest

/-- Helper for `format_math`: the scan of `re.sub` (advance one position on
a failed match, continue after the replacement on success). -/
def mathScanAux : Nat → Str → Str
  | 0, s => s
  | _+1, [] => []
  | f+1, c :: rest =>
    if c == '$' then
      match rest with
      | c0 :: rest' =>
        if !isSpaceChar c0 then
          match mathEndAux rest'.length ([c0] : Str) rest' with
          | some (content, after) =>
            ("<anki-mathjax>").toList ++ content ++ ("</anki-mathjax>").toList
              ++ mathScanAux f after
          | none => c :: mathScanAux f rest
        else c :: mathScanAux f rest
      | [] => c :: mathScanAux f rest
    else c :: mathScanAux f rest

/-- `BaseFlashcard.format_math` (src/update_flashcards.py, lines 292-294):
`re.sub(r"\$(\S(?:.*?\S)?)\$", r"<anki-mathjax>\1</anki-mathjax>", s)`. -/
def format_math (s : Str) : Str := mathScanAux s.length s

/-- Helper for `format_img`: lazy search for the first `]]` (no newline may
intervene, since `.` does not match one). -/
def imgCloseAux : Nat → Str → Option (Str × Str)
  | 0, _ => none
  | f+1, s =>
    match s with
    | [] => none
    | c :: rest =>
      if ("]]").toList.isPrefixOf (c :: rest) then some ([], rest.drop 1)
      else if c == '\n' then none
      else (imgCloseAux f rest).map (fun p => (c :: p.1, p.2))

/-- Helper for `format_img`: the `re.sub` scan. -/
def imgScanAux : Nat → Str → Str
  | 0, s => s
  | _+1, [] => []
  | f+1, c :: rest =>
    if ("![[").toList.isPrefixOf (c :: rest) then
      match imgCloseAux (rest.drop 2).length (rest.drop 2) with
      | some (content, after) =>
        ("<img src=\"").toList ++ content ++ ("\">").toList ++ imgScanAux f after
      | none => c :: imgScanAux f rest
    else c :: imgScanAux f rest

/-- `BaseFlashcard.format_img` (src/update_flashcards.py, lines 296-298):
`re.sub(r"!\[\[(.*?)\]\]", r"<img src=\"\1\">", s)`. -/
def format_img (s : Str) : Str := imgScanAux s.length s

/-- Helper for `format_mermaid`: lazy search for the first closing ```` ``` ````
(DOTALL: newlines allowed in the content). -/
def mermaidCloseAux : Nat → Str → Option (Str × Str)
  | 0, _ => none
  | f+1, s =>
    match s with
    | [] => none
    | c :: rest =>
      if ("```").toList.isPrefixOf (c :: rest) then some ([], rest.drop 2)
      else (mermaidCloseAux f rest).map (fun p => (c :: p.1, p.2))

/-- Helper for `format_mermaid`: the `re.sub` scan. -/
def mermaidScanAux : Nat → Str → Str
  | 0, s => s
  | _+1, [] => []
  | f+1, c :: rest =>
    if ("```mermaid").toList.isPrefixOf (c :: rest) then
      match mermaidCloseAux (rest.drop 9).length (rest.drop 9) with
      | some (content, after) =>
        ("<div class=\"mermaid\">").toList ++ content ++ ("</div>").toList
          ++ mermaidScanAux f after
      | none => c :: mermaidScanAux f rest
    else c :: mermaidScanAux f rest

/-- `BaseFlashcard.format_mermaid` (src/update_flashcards.py, lines 305-307):
`re.sub(r"```mermaid(.*?)```", ..., flags=re.DOTALL)`. -/
def format_mermaid (s : Str) : Str := mermaidScanAux s.length s

/-- `BaseFlashcard.strip_single_line_formatting` (src/update_flashcards.py,
lines 277-286); `none` models the ValueError raised on multi-line input. -/
def strip_single_line_formatting (text : Str) : Option Str :=
  if 0 < countOcc text ([ '\n' ] : Str) then none
  else
    let t := trim text
    let t := if (("-").toList.isPrefixOf t) || (("#").toList.isPrefixOf t) then trim (t.drop 1)
             else t
    some t

/-! ### Cloze replacement -/

/-- The numbered replacement loop of `Cloze.format_clozue`
(src/update_flashcards.py, lines 545-548): iteration `i` replaces the first
remaining `**` by `{{c<i+1>::` and the next by `}}`. -/
def clozeReplaceLoop : Nat → Nat → Str → Str
  | 0, _, s => s
  | k+1, i, s =>
    clozeReplaceLoop k (i+1)
      (replaceFirst
        (replaceFirst s (("**").toList) (("\x7b\x7bc").toList ++ natRepr (i+1) ++ ("::").toList))
        (("**").toList) (("\x7d\x7d").toList))

/-- The replacement phase of `Cloze.format_clozue`: the loop runs
`string.count("**") // 2` times. -/
def clozeReplace (s : Str) : Str := clozeReplaceLoop (countOcc s (("**").toList) / 2) 0 s

/-- `Cloze.format_clozue` (src/update_flashcards.py, lines 538-550); the
final external `markdown.markdown` call is the explicit parameter `md`;
`none` models the ValueError of `strip_single_line_formatting`. -/
def format_clozue (md : Str → Str) (s : Str) : Option Str :=
  match strip_single_line_formatting (format_math s) with
  | none => none
  | some s2 => some (md (clozeReplace (format_img (strip_anki_id s2))))

/-- `ClozeFlashcard.clozify` pattern table (src/mankey/cloze_flashcard.py,
lines 10-42), entry for entry; note the missing `{` entries before `{c6::`,
`{c7::` and `{c8::`. -/
def clozifyPattern : List Str :=
  [("\x7b").toList, ("\x7bc1::").toList, ("\x7d").toList, ("\x7d").toList,
   ("\x7b").toList, ("\x7bc2::").toList, ("\x7d").toList, ("\x7d").toList,
   ("\x7b").toList, ("\x7bc3::").toList, ("\x7d").toList, ("\x7d").toList,
   ("\x7b").toList, ("\x7bc4::").toList, ("\x7d").toList, ("\x7d").toList,
   ("\x7b").toList, ("\x7bc5::").toList, ("\x7d").toList, ("\x7d").toList,
   ("\x7bc6::").toList, ("\x7d").toList, ("\x7d").toList,
   ("\x7bc7::").toList, ("\x7d").toList, ("\x7d").toList,
   ("\x7bc8::").toList, ("\x7d").toList, ("\x7d").toList]

/-- `ClozeFlashcard.clozify(index)`; `none` models the IndexError past the
end of the 29-entry table. -/
def clozify (index : Nat) : Option Str := clozifyPattern.get? index

/-- The escape check of `ClozeFlashcard.import_cloze_flashcards` line 50:
`line_content[line_content.index(character) - 1] != "\\"`.  `character` is
always `"*"` here, so `index` finds the first asterisk of the line however
far the loop has advanced, and Python's index `-1` wraps to the last
character of the line when that first asterisk is at position 0. -/
def firstStarGuard (line : Str) : Bool :=
  match line.findIdx? (fun c => c == '*') with
  | none => true
  | some 0 => line.getLast? != some '\\'
  | some (i+1) => line.get? i != some '\\'

/-- The per-character replacement loop of
`ClozeFlashcard.import_cloze_flashcards` (src/mankey/cloze_flashcard.py,
lines 48-52) acting on the output copy of the line; `none` models the
IndexError raised by `clozify` when the table runs out. -/
def mankeyStarLoop (g : Bool) : Str → Str → Nat → Option (Str × Nat)
  | [], out, n => some (out, n)
  | c :: cs, out, n =>
    if c == '*' && g then
      match clozify n with
      | none => none
      | some rep => mankeyStarLoop g cs (replaceFirst out ([ '*' ] : Str) rep) (n + 1)
    else mankeyStarLoop g cs out n

/-- The whole-line cloze transformation performed by
`ClozeFlashcard.import_cloze_flashcards` on `output[line_number]` (the
initial output line equals the input line). -/
def mankeyClozeLine (line : Str) : Option Str :=
  (mankeyStarLoop (firstStarGuard line) line line 0).map (fun p => p.1)

/-! ### Remnote recognition -/

/-- Recognition of one line by `RemnoteFlashcard.import_remnote_flashcards`
(src/mankey/remnote_flashcard.py, lines 11-17): `none` when the line has no
separator; `some (Except.error ())` models the ValueError of unpacking a
split with a number of parts other than two.  The result carries
(question, answer, card model). -/
def remnote_line (line : Str) : Option (Except Unit (Str × Str × Str)) :=
  if isSubstr (("::").toList) line || isSubstr ((":::").toList) line then
    some (
      if isSubstr ((":::").toList) line then
        match splitOnSep line ((":::").toList) with
        | [q, a] => Except.ok (q, a, ("Basic (and reversed card)").toList)
        | _ => Except.error ()
      else
        match splitOnSep line (("::").toList) with
        | [q, a] => Except.ok (q, a, ("Basic").toList)
        | _ => Except.error ())
  else none

/-! ### Definition heuristic -/

/-- Helper for `countDefMatches`: lazy search for the closing `**:` of the
pattern `\*\*(.*?)\*\*:` (the content may not contain a newline); returns
the remainder after the full match. -/
def defCloseAux : Nat → Str → Option Str
  | 0, _ => none
  | f+1, s =>
    match s with
    | [] => none
    | c :: rest =>
      if (("**:").toList).isPrefixOf (c :: rest) then some (rest.drop 2)
      else if c == '\n' then none
      else defCloseAux f rest

/-- Number of matches found by `re.findall(r"\*\*(.*?)\*\*:", text)`. -/
def countDefMatches : Nat → Str → Nat
  | 0, _ => 0
  | f+1, s =>
    match s with
    | [] => 0
    | c :: rest =>
      if (("**").toList).isPrefixOf (c :: rest) then
        match defCloseAux rest.length (rest.drop 1) with
        | some after => 1 + countDefMatches f after
        | none => countDefMatches f rest
      else countDefMatches f rest

/-- `MDFile.is_definition` (src/update_flashcards.py, lines 637-647). -/
def is_definition (text : Str) : Bool :=
  let t := trim text
  let t := if (("-").toList).isPrefixOf t then trim (t.drop 1) else t
  (("**").toList).isPrefixOf t && countDefMatches t.length t == 1

/-- The per-line guard of `MDFile.import_clozes` (src/update_flashcards.py,
lines 601-602): the line contains `**` and is not a definition. -/
def mdClozeSelected (line : Str) : Bool :=
  isSubstr (("**").toList) line && !is_definition line

/-- The line numbers selected by the `MDFile.import_clozes` loop. -/
def mdClozeLines (fileLines : List Str) : List Nat :=
  (List.range fileLines.length).filter (fun i => mdClozeSelected (fileLines.getD i []))

/-! ### Header question/answer recognizer -/

/-- Indexed scan embedding the `for line_number, line_content in
enumerate(self.file_lines)` searches: first index (counting from `i`) whose
line satisfies `p`. -/
def findFromAux (p : Nat → Str → Bool) : List Str → Nat → Option Nat
  | [], _ => none
  | l :: ls, i => if p i l then some i else findFromAux p ls (i+1)

/-- Embeds `re.match(r"#{D}\sAnswer", line)`: the first `D` characters are
`#`, followed by one whitespace character, then `Answer`. -/
def matchesAnswerHeader (lvl : Nat) (line : Str) : Bool :=
  (List.replicate lvl '#').isPrefixOf line &&
    (match line.drop lvl with
     | c :: rest => isSpaceChar c && (("Answer").toList).isPrefixOf rest
     | [] => false)

/-- `HeaderQuestionAnswer.get_question_end_line` (src/update_flashcards.py,
lines 386-395): the line preceding the first `#{D}\sAnswer` line strictly
after the question start; `none` models the ValueError. -/
def get_question_end_line (fileLines : List Str) (questionLevel questionStartLine : Nat) :
    Option Nat :=
  (findFromAux
      (fun i l => decide (questionStartLine < i) && matchesAnswerHeader questionLevel l)
      fileLines 0).map (fun i => i - 1)

/-- Truthiness of `re.match(r"#{1,D}", line)` for `D ≥ 1`: the bounded
repetition succeeds as soon as the line starts with one `#`, so the depth
bound `D` has no effect on the test. -/
def startsWithHash (line : Str) : Bool := line.headD ' ' == '#'

/-- Whether a line consists solely of a marker
(`re.search(r"^\^anki-(\d{13})$", line)`). -/
def isMarkerLine (line : Str) : Bool := (markerLineId line).isSome

/-- `HeaderQuestionAnswer.get_answer_end_line` (src/update_flashcards.py,
lines 397-413).  The loop tests `line_number == last_line` before the
boundary tests, so once the scan reaches the file's last line that line is
returned even if it is a heading or marker line; `questionLevel` is the `D`
of the regex `#{1,D}`, which (for `D ≥ 1`) only tests for a leading `#`. -/
def get_answer_end_line (fileLines : List Str) (questionLevel answerStartLine : Nat) :
    Option Nat :=
  (findFromAux
      (fun i l =>
        (i == fileLines.length - 1)
          || (decide (answerStartLine < i) && (startsWithHash l || isMarkerLine l)))
      fileLines 0).map
    (fun i => if i == fileLines.length - 1 then i else i - 1)

/-- `len(self.file_lines[start_line].split(" ")[0])` (line 377): length of
the text before the first space. -/
def headerLevel (line : Str) : Nat := ((splitOnSep line ([ ' ' ] : Str)).headD []).length

/-- `"\n".join(self.file_lines[start_line : end_line + 1])`. -/
def joinLinesRange (fileLines : List Str) (startLine endLine : Nat) : Str :=
  List.intercalate ([ '\n' ] : Str) ((fileLines.drop startLine).take (endLine + 1 - startLine))

/-- The pure part of `HeaderQuestionAnswer.format_string`
(src/update_flashcards.py, lines 415-424): everything before the external
`markdown.markdown` renderer call. -/
def format_string_core (fileLines : List Str) (startLine endLine : Nat) : Str :=
  format_mermaid (format_img (format_math (strip_anki_id
    (joinLinesRange fileLines startLine endLine))))

/-- The fields computed by `HeaderQuestionAnswer.__init__`. -/
structure HeaderQA where
  questionLevel : Nat
  questionStartLine : Nat
  questionEndLine : Nat
  answerStartLine : Nat
  answerEndLine : Nat
  questionRaw : Str
  answerRaw : Str
  ankiId : Option Nat

/-- `HeaderQuestionAnswer.__init__` (src/update_flashcards.py, lines
373-384) up to the external renderer: `questionRaw`/`answerRaw` are the
pre-renderer pipeline outputs; `none` models the ValueErrors of the two
scans. -/
def mkHeaderQA (fileLines : List Str) (startLine : Nat) : Option HeaderQA :=
  let lvl := headerLevel (fileLines.getD startLine [])
  let qStart := startLine + 1
  match get_question_end_line fileLines lvl qStart with
  | none => none
  | some qEnd =>
    let aStart := qEnd + 2
    match get_answer_end_line fileLines lvl aStart with
    | none => none
    | some aEnd =>
      some { questionLevel := lvl, questionStartLine := qStart, questionEndLine := qEnd,
             answerStartLine := aStart, answerEndLine := aEnd,
             questionRaw := format_string_core fileLines qStart qEnd,
             answerRaw := format_string_core fileLines aStart aEnd,
             ankiId := get_multiline_anki_id fileLines aEnd }

/-- The guard of `MDFile.import_header_question_answer` (line 618):
`re.match(r"^#+\sQuestion", line)`. -/
def headerQuestionGuard (line : Str) : Bool :=
  let hashes := line.takeWhile (fun c => c == '#')
  decide (1 ≤ hashes.length) &&
    (match line.drop hashes.length with
     | c :: rest => isSpaceChar c && (("Question").toList).isPrefixOf rest
     | [] => false)

/-- The guard of `MDFile.import_inline_question_answer` (line 626):
`re.match(r"^-+\sQuestion", line.strip())`. -/
def inlineQuestionGuard (line : Str) : Bool :=
  let t := trim line
  let dashes := t.takeWhile (fun c => c == '-')
  decide (1 ≤ dashes.length) &&
    (match t.drop dashes.length with
     | c :: rest => isSpaceChar c && (("Question").toList).isPrefixOf rest
     | [] => false)

/-! ### Remote store protocol -/

/-- Minimal JSON value model for the AnkiConnect protocol. -/
inductive JVal where
  | jnull : JVal
  | jnum : Nat → JVal
  | jstr : Str → JVal
  | jlist : List JVal → JVal
  | jobj : List (Str × JVal) → JVal

/-- A JSON response object, modeled as its field list. -/
abbrev JResp := List (Str × JVal)

/-- Field lookup (`response["error"]`, `"error" in response`). -/
def lookupField (r : JResp) (k : Str) : Option JVal :=
  match r.find? (fun p => p.1 == k) with
  | some p => some p.2
  | none => none

/-- The distinguished duplicate error text of the protocol. -/
def duplicateErrorText : Str := ("cannot create note because it is a duplicate").toList

/-- Errors raised by the script connector's `invoke`. -/
inductive InvokeErr where
  | duplicateNote : InvokeErr
  | valueErr : Str → InvokeErr

/-- Error classification at the end of `AnkiConnector.invoke`
(src/update_flashcards.py, lines 68-73): the distinguished duplicate text
raises `DuplicateNoteError`; any other message a `ValueError`. -/
def classifyInvokeErr (msg : Str) : InvokeErr :=
  if msg == duplicateErrorText then InvokeErr.duplicateNote else InvokeErr.valueErr msg

/-- The message carried by a non-null error field (a string in the
protocol; a non-string error value is modeled as an empty message). -/
def errFieldText : JVal → Str
  | JVal.jstr s => s
  | _ => []

/-- `AnkiConnector.invoke` of the script (src/update_flashcards.py, lines
41-73): response validation, then the duplicate special case. -/
def invoke (resp : JResp) : Except InvokeErr JVal :=
  if resp.length != 2 then
    Except.error (classifyInvokeErr (("response has an unexpected number of fields").toList))
  else
    match lookupField resp (("error").toList), lookupField resp (("result").toList) with
    | none, _ =>
      Except.error (classifyInvokeErr (("response is missing required error field").toList))
    | some _, none =>
      Except.error (classifyInvokeErr (("response is missing required result field").toList))
    | some JVal.jnull, some res => Except.ok res
    | some e, some _ => Except.error (classifyInvokeErr (errFieldText e))

/-- `AnkiConnector.invoke` of the mankey package
(src/mankey/anki_connector.py, lines 33-63): the same validation, but with
no duplicate special case — every failure is a ValueError carrying the
message. -/
def invokeM (resp : JResp) : Except Str JVal :=
  if resp.length != 2 then
    Except.error (("response has an unexpected number of fields").toList)
  else
    match lookupField resp (("error").toList), lookupField resp (("result").toList) with
    | none, _ => Except.error (("response is missing required error field").toList)
    | some _, none => Except.error (("response is missing required result field").toList)
    | some JVal.jnull, some res => Except.ok res
    | some e, some _ => Except.error (errFieldText e)

/-- Remote requests issued by the connectors (action plus the parameters
relevant to the claims). -/
inductive Req where
  | notesInfo : Nat → Req
  | addNote : Str → Str → Str → Str → Req
  | updateNote : Str → Str → Str → Str → Nat → Req
  | addClozeNote : Str → Str → Req
  | updateClozeNote : Str → Str → Nat → Req
  | findNotes : Str → Req
  | createDeck : Str → Req
  | storeMediaFile : Str → Req

/-- Remote store responses, one table per action (`findNotes` and
`notesInfo` keyed by their parameter). -/
structure Remote where
  notesInfoResp : Nat → JResp
  addNoteResp : JResp
  updateNoteResp : JResp
  findNotesResp : Str → JResp

/-- The note id carried by a successful addNote result (a number in the
protocol; anything else is modeled as absent). -/
def jvalToId : JVal → Option Nat
  | JVal.jnum n => some n
  | _ => none

/-- Whether a request list contains a create (`addNote`) request. -/
def hasAddNote (rs : List Req) : Bool :=
  rs.any (fun r =>
    match r with
    | Req.addNote _ _ _ _ => true
    | Req.addClozeNote _ _ => true
    | _ => false)

/-- Whether a request list contains an update request. -/
def hasUpdateNote (rs : List Req) : Bool :=
  rs.any (fun r =>
    match r with
    | Req.updateNote _ _ _ _ _ => true
    | Req.updateClozeNote _ _ _ => true
    | _ => false)

/-- `AnkiConnector.import_flashcard` of the mankey package
(src/mankey/anki_connector.py, lines 226-254).  `md` is the external
`markdown_to_anki` renderer.  Returns the result (`Except` models the
uncaught ValueError of `invoke`) together with the remote requests issued,
in order.  On a stale identifier (notesInfo result equal to `[{}]`) the
function prints a message, issues no further request, and returns `None`. -/
def import_flashcard (md : Str → Str) (rm : Remote) (deck q a model : Str)
    (ankiId : Option Nat) : Except Str (Option Nat) × List Req :=
  let q := md q
  let a := md a
  if ankiId.getD 0 ≠ 0 then
    let id := ankiId.getD 0
    match invokeM (rm.notesInfoResp id) with
    | Except.error e => (Except.error e, [Req.notesInfo id])
    | Except.ok r =>
      match r with
      | JVal.jlist [JVal.jobj []] => (Except.ok none, [Req.notesInfo id])
      | _ =>
        match invokeM rm.updateNoteResp with
        | Except.error e => (Except.error e, [Req.notesInfo id, Req.updateNote deck q a model id])
        | Except.ok _ => (Except.ok none, [Req.notesInfo id, Req.updateNote deck q a model id])
  else
    match invokeM rm.addNoteResp with
    | Except.error e => (Except.error e, [Req.addNote deck q a model])
    | Except.ok r => (Except.ok (jvalToId r), [Req.addNote deck q a model])

/-- `AnkiConnector.import_cloze_flashcard` of the mankey package
(src/mankey/anki_connector.py, lines 256-280): same control flow with the
Cloze model. -/
def import_cloze_flashcard (rm : Remote) (deck text : Str) (ankiId : Option Nat) :
    Except Str (Option Nat) × List Req :=
  if ankiId.getD 0 ≠ 0 then
    let id := ankiId.getD 0
    match invokeM (rm.notesInfoResp id) with
    | Except.error e => (Except.error e, [Req.notesInfo id])
    | Except.ok r =>
      match r with
      | JVal.jlist [JVal.jobj []] => (Except.ok none, [Req.notesInfo id])
      | _ =>
        match invokeM rm.updateNoteResp with
        | Except.error e => (Except.error e, [Req.notesInfo id, Req.updateClozeNote deck text id])
        | Except.ok _ => (Except.ok none, [Req.notesInfo id, Req.updateClozeNote deck text id])
  else
    match invokeM rm.addNoteResp with
    | Except.error e => (Except.error e, [Req.addClozeNote deck text])
    | Except.ok r => (Except.ok (jvalToId r), [Req.addClozeNote deck text])

/-- `AnkiConnector.find_question_answer` (src/update_flashcards.py, lines
187-203): store-side search keyed by the question text, expecting exactly
one match.  (Python's `len(matches)` on a non-list result and the `int`
annotation on `matches[0]` are modeled as errors.) -/
def find_question_answer (rm : Remote) (question : Str) : Except InvokeErr Nat × List Req :=
  match invoke (rm.findNotesResp question) with
  | Except.error e => (Except.error e, [Req.findNotes question])
  | Except.ok (JVal.jlist ms) =>
    (if ms.length == 1 then
       match ms.headD JVal.jnull with
       | JVal.jnum n => Except.ok n
       | _ => Except.error (InvokeErr.valueErr (("match is not a note id").toList))
     else Except.error (InvokeErr.valueErr
       ((("Expected 1 match, got ").toList) ++ natRepr ms.length)),
     [Req.findNotes question])
  | Except.ok _ =>
    (Except.error (InvokeErr.valueErr (("len() on a non-list result").toList)),
     [Req.findNotes question])

/-- `AnkiConnector.import_question_answer` (src/update_flashcards.py, lines
166-185): update when a (truthy) id is present; otherwise create, falling
back to `find_question_answer` when the store reports the duplicate
error. -/
def import_question_answer (rm : Remote) (deck question answer : Str) (ankiId : Option Nat) :
    Except InvokeErr (Option Nat) × List Req :=
  if ankiId.getD 0 ≠ 0 then
    match invoke rm.updateNoteResp with
    | Except.error e =>
      (Except.error e, [Req.updateNote deck question answer (("Basic").toList) (ankiId.getD 0)])
    | Except.ok _ =>
      (Except.ok ankiId, [Req.updateNote deck question answer (("Basic").toList) (ankiId.getD 0)])
  else
    match invoke rm.addNoteResp with
    | Except.ok r => (Except.ok (jvalToId r), [Req.addNote deck question answer (("Basic").toList)])
    | Except.error InvokeErr.duplicateNote =>
      let (res, reqs) := find_question_answer rm question
      (res.map some, Req.addNote deck question answer (("Basic").toList) :: reqs)
    | Except.error e => (Except.error e, [Req.addNote deck question answer (("Basic").toList)])

/-- Helper for `decloze`: lazy search for the closing `}}` (no newline may
intervene). -/
def clozeCloseAux : Nat → Str → Option (Str × Str)
  | 0, _ => none
  | f+1, s =>
    match s with
    | [] => none
    | c :: rest =>
      if ("\x7d\x7d").toList.isPrefixOf (c :: rest) then some ([], rest.drop 1)
      else if c == '\n' then none
      else (clozeCloseAux f rest).map (fun p => (c :: p.1, p.2))

/-- Helper for `decloze`: the scan of
`re.sub(r"{{c\d::(.*?)}}", r"\1", s)` — note `\d` matches exactly one
digit. -/
def declozeAux : Nat → Str → Str
  | 0, s => s
  | _+1, [] => []
  | f+1, c :: rest =>
    if ("\x7b\x7bc").toList.isPrefixOf (c :: rest)
        && ((c :: rest).getD 3 ' ').isDigit
        && ("::").toList.isPrefixOf ((c :: rest).drop 4) then
      match clozeCloseAux ((c :: rest).drop 6).length ((c :: rest).drop 6) with
      | some (content, after) => content ++ declozeAux f after
      | none => c :: declozeAux f rest
    else c :: declozeAux f rest

/-- The de-clozing substitution of `find_clozure`. -/
def decloze (s : Str) : Str := declozeAux s.length s

/-- `s.replace("\\", "\\\\")`: double every backslash. -/
def escapeBackslashes (s : Str) : Str :=
  s.foldr (fun c acc => if c == '\\' then '\\' :: '\\' :: acc else c :: acc) []

/-- `AnkiConnector.find_clozure` (src/update_flashcards.py, lines
225-246). -/
def find_clozure (rm : Remote) (clozure : Str) : Except InvokeErr Nat × List Req :=
  let query := escapeBackslashes (decloze clozure)
  match invoke (rm.findNotesResp query) with
  | Except.error e => (Except.error e, [Req.findNotes query])
  | Except.ok (JVal.jlist ms) =>
    (if ms.length == 1 then
       match ms.headD JVal.jnull with
       | JVal.jnum n => Except.ok n
       | _ => Except.error (InvokeErr.valueErr (("match is not a note id").toList))
     else Except.error (InvokeErr.valueErr
       ((("Expected 1 match, got ").toList) ++ natRepr ms.length)),
     [Req.findNotes query])
  | Except.ok _ =>
    (Except.error (InvokeErr.valueErr (("len() on a non-list result").toList)),
     [Req.findNotes query])

/-- `AnkiConnector.import_clozure` (src/update_flashcards.py, lines
205-223). -/
def import_clozure (rm : Remote) (deck clozure : Str) (ankiId : Option Nat) :
    Except InvokeErr (Option Nat) × List Req :=
  if ankiId.getD 0 ≠ 0 then
    match invoke rm.updateNoteResp with
    | Except.error e => (Except.error e, [Req.updateClozeNote deck clozure (ankiId.getD 0)])
    | Except.ok _ => (Except.ok ankiId, [Req.updateClozeNote deck clozure (ankiId.getD 0)])
  else
    match invoke rm.addNoteResp with
    | Except.ok r => (Except.ok (jvalToId r), [Req.addClozeNote deck clozure])
    | Except.error InvokeErr.duplicateNote =>
      let (res, reqs) := find_clozure rm clozure
      (res.map some, Req.addClozeNote deck clozure :: reqs)
    | Except.error e => (Except.error e, [Req.addClozeNote deck clozure])

/-! ### Persistence traces -/

/-- Observable side effect of a sync run: a remote round trip (tagged with
the index of the flashcard being synced) or a flush of the full line buffer
to storage. -/
inductive Event where
  | remote : Nat → Req → Event
  | persist : List Str → Event

/-- The flashcard index of a remote event. -/
def cardTag : Event → Option Nat
  | Event.remote c _ => some c
  | Event.persist _ => none

/-- Whether the event is a buffer flush. -/
def isPersistEv : Event → Bool
  | Event.persist _ => true
  | Event.remote _ _ => false

/-- The per-card persistence property: between any two remote calls
belonging to different flashcards, the buffer is persisted. -/
def PerCardPersist (evs : List Event) : Prop :=
  ∀ i < evs.length, ∀ j < evs.length, i < j →
    (cardTag (evs.getD i (Event.persist []))).isSome = true →
    (cardTag (evs.getD j (Event.persist []))).isSome = true →
    cardTag (evs.getD i (Event.persist [])) ≠ cardTag (evs.getD j (Event.persist [])) →
    ∃ k < j, i < k ∧ isPersistEv (evs.getD k (Event.persist [])) = true

/-- The mutable state of `ClozeFlashcard.import_cloze_flashcards`: the live
`file_lines`, the `output` copy, the number of cloze lines processed so far
(instrumentation tagging the events), and the event trace so far. -/
structure ClozeRunState where
  fileLines : List Str
  output : List Str
  card : Nat
  events : List Event

/-- The loop of `ClozeFlashcard.import_cloze_flashcards`
(src/mankey/cloze_flashcard.py, lines 44-67) over the enumerated lines (the
loop only mutates already-visited indices, so enumerating the original list
is equivalent to iterating the live one).  The returned message, if any, is
the uncaught exception that aborted the run.  `write_file` — persisting the
current `file_lines` — runs after every processed cloze line. -/
def importClozeFlashcardsAux (rm : Remote) (deck : Str) :
    List (Nat × Str) → ClozeRunState → ClozeRunState × Option Str
  | [], st => (st, none)
  | (i, line) :: rest, st =>
    if isSubstr (("**").toList) line then
      match mankeyClozeLine line with
      | none => (st, some (("IndexError: list index out of range").toList))
      | some newOut =>
        let out1 := st.output.set i newOut
        let q0 := trim newOut
        let q1 := if (("-").toList).isPrefixOf q0 || (("#").toList).isPrefixOf q0 then
                    trim (q0.drop 1)
                  else q0
        let qa := split_anki_id q1
        let imp := import_cloze_flashcard rm deck qa.1 qa.2
        let evs := st.events ++ imp.2.map (Event.remote st.card)
        match imp.1 with
        | Except.error e => ({ st with output := out1, events := evs }, some e)
        | Except.ok newId =>
          let out2 := if newId.getD 0 ≠ 0 then
                        out1.set i (trim ((splitOnSep newOut (("^anki-").toList)).headD []))
                      else out1
          let fl2 := if newId.getD 0 ≠ 0 then
                       st.fileLines.set i
                         (st.fileLines.getD i [] ++ ' ' :: ankiTag (newId.getD 0))
                     else st.fileLines
          importClozeFlashcardsAux rm deck rest
            { fileLines := fl2, output := out2, card := st.card + 1,
              events := evs ++ [Event.persist fl2] }
    else importClozeFlashcardsAux rm deck rest st

/-- `ClozeFlashcard.import_cloze_flashcards` (src/mankey/cloze_flashcard.py,
lines 44-67). -/
def import_cloze_flashcards (rm : Remote) (deck : Str) (fileLines : List Str) :
    ClozeRunState × Option Str :=
  importClozeFlashcardsAux rm deck fileLines.enum
    { fileLines := fileLines, output := fileLines, card := 0, events := [] }

/-! ### The script's per-document processing -/

/-- `re.findall(r"!\[\[(.*?)\]\]", s)`: referenced image names, in order. -/
def findImages : Nat → Str → List Str
  | 0, _ => []
  | f+1, s =>
    match s with
    | [] => []
    | c :: rest =>
      if ("![[").toList.isPrefixOf (c :: rest) then
        match imgCloseAux (rest.drop 2).length (rest.drop 2) with
        | some (content, after) => content :: findImages f after
        | none => findImages f rest
      else findImages f rest

/-- Deck/media existence caches of the script's `AnkiConnector`
(src/update_flashcards.py, lines 21-23), mutated optimistically. -/
structure ConnState where
  deckNames : List Str
  mediaFiles : List Str

/-- `AnkiConnector.create_deck` of the script (src/update_flashcards.py,
lines 103-108). -/
def script_create_deck (cst : ConnState) (deck : Str) : ConnState × List Req :=
  if cst.deckNames.contains deck then (cst, [])
  else ({ cst with deckNames := cst.deckNames ++ [deck] }, [Req.createDeck deck])

/-- `AnkiConnector.store_media_file` of the script (src/update_flashcards.py,
lines 110-126). -/
def script_store_media_file (cst : ConnState) (name : Str) : ConnState × List Req :=
  if cst.mediaFiles.contains name then (cst, [])
  else ({ cst with mediaFiles := cst.mediaFiles ++ [name] }, [Req.storeMediaFile name])

/-- `BaseFlashcard.store_media` (src/update_flashcards.py, lines 300-303). -/
def store_media (cst : ConnState) (s : Str) : ConnState × List Req :=
  (findImages s.length s).foldl
    (fun (p : ConnState × List Req) img =>
      let q := script_store_media_file p.1 img
      (q.1, p.2 ++ q.2))
    (cst, [])

/-- State of a script run over one markdown file: connector caches, the
`updated_file_lines` buffer, a cloze counter (instrumentation tagging the
events), and the event trace so far. -/
structure MDRunState where
  conn : ConnState
  updatedLines : List Str
  card : Nat
  events : List Event

/-- The loop of `MDFile.import_clozes` (src/update_flashcards.py, lines
599-605) together with `Cloze.import_flashcard` (lines 552-556): per
selected line, `store_media`, `create_deck`, `import_clozure`, then the
marker rewrite of `updated_file_lines` — and no file write anywhere.  `md`
is the external renderer of `format_clozue`. -/
def mdImportClozesAux (rm : Remote) (md : Str → Str) (deck : Str) :
    List (Nat × Str) → MDRunState → MDRunState × Option Str
  | [], st => (st, none)
  | (i, line) :: rest, st =>
    if isSubstr (("**").toList) line && !is_definition line then
      match format_clozue md line with
      | none => (st, some (("ValueError: multi-line input").toList))
      | some clozeString =>
        let aid := get_anki_id_from_line line
        let sm := store_media st.conn clozeString
        let cd := script_create_deck sm.1 deck
        let imp := import_clozure rm deck clozeString aid
        let evs := st.events ++ (sm.2 ++ cd.2 ++ imp.2).map (Event.remote st.card)
        match imp.1 with
        | Except.error _ => ({ st with conn := cd.1, events := evs }, some (("invoke error").toList))
        | Except.ok newId =>
          match new_line_content line (newId.getD 0) with
          | none =>
            ({ st with conn := cd.1, events := evs },
             some (("ValueError: Anki ID is not defined.").toList))
          | some newLine =>
            mdImportClozesAux rm md deck rest
              { conn := cd.1, updatedLines := st.updatedLines.set i newLine,
                card := st.card + 1, events := evs }
    else mdImportClozesAux rm md deck rest st

/-- `MDFile.export_file` (src/update_flashcards.py, lines 631-635): flush
the joined buffer only when it differs from the original content. -/
def mdExportFileEvents (originalLines updatedLines : List Str) : List Event :=
  if updatedLines == originalLines then [] else [Event.persist updatedLines]

/-- The per-document processing of `main` (src/update_flashcards.py, lines
663-669) for a document on which only the cloze recognizer fires (no
definition, header-Question or inline-Question lines): `import_clozes`
followed by `export_file`. -/
def mdProcessClozeFile (rm : Remote) (md : Str → Str) (deck : Str) (conn : ConnState)
    (fileLines : List Str) : MDRunState × Option Str :=
  let r := mdImportClozesAux rm md deck fileLines.enum
    { conn := conn, updatedLines := fileLines, card := 0, events := [] }
  match r.2 with
  | some e => (r.1, some e)
  | none =>
    ({ r.1 with events := r.1.events ++ mdExportFileEvents fileLines r.1.updatedLines }, none)

/-- Whether any recognizer of `main` other than the cloze one would fire on
the document: a definition line, a header-Question line, or an
inline-Question line. -/
def otherRecognizersFire (fileLines : List Str) : Bool :=
  fileLines.any (fun l => is_definition l || headerQuestionGuard l || inlineQuestionGuard l)

/-! ### Specification-side notions and proof scaffolding -/

/-- The text ends with a marker: some prefix followed by `^anki-` and
exactly 13 decimal digits. -/
def EndsWithAnkiMarker (s : Str) : Prop :=
  ∃ p d, s = p ++ ("^anki-").toList ++ d ∧ d.length = 13 ∧ ∀ c ∈ d, c.isDigit = true

/-- A well-formed single-line cloze body: blanks and separators
concatenated as `**blank**sep`, appended after a prefix. -/
def mkClozePairs : List (Str × Str) → Str
  | [] => []
  | (b, sep) :: ps => ("**").toList ++ b ++ ("**").toList ++ sep ++ mkClozePairs ps

/-- The expected left-to-right numbering of the blanks, starting at
`i + 1`. -/
def clozeExpected : Nat → List (Str × Str) → Str
  | _, [] => []
  | i, (b, sep) :: ps =>
    ("\x7b\x7bc").toList ++ natRepr (i+1) ++ ("::").toList ++ b ++ ("\x7d\x7d").toList
      ++ sep ++ clozeExpected (i+1) ps

/-- Traces produced by a per-card-persisting loop: finished blocks — the
remote calls of card `c` followed by one flush — with increasing card tags,
optionally ending in the remote calls of an aborted final card. -/
inductive GoodTrace : Nat → List Event → Prop
  | tail : ∀ c rs, (∀ e ∈ rs, cardTag e = some c) → GoodTrace c rs
  | block : ∀ c rs l tl, (∀ e ∈ rs, cardTag e = some c) →
      GoodTrace (c+1) tl → GoodTrace c (rs ++ Event.persist l :: tl)

/-! ### Concrete fixtures for witnesses and counterexamples -/

/-- A well-formed success response carrying the given result. -/
def okResp (r : JVal) : JResp :=
  [((("error").toList), JVal.jnull), ((("result").toList), r)]

/-- A well-formed error response carrying the given message. -/
def errResp (msg : Str) : JResp :=
  [((("error").toList), JVal.jstr msg), ((("result").toList), JVal.jnull)]

/-- A sample store: creates succeed with a fixed fresh id, updates succeed,
and every `notesInfo` query reports a missing note (`[{}]`). -/
def sampleRemote : Remote :=
  { notesInfoResp := fun _ => okResp (JVal.jlist [JVal.jobj []]),
    addNoteResp := okResp (JVal.jnum 1111111111111),
    updateNoteResp := okResp JVal.jnull,
    findNotesResp := fun _ => okResp (JVal.jlist []) }

/-- A sample store whose create reports the duplicate error and whose
search finds exactly one note. -/
def dupRemoteOne : Remote :=
  { notesInfoResp := fun _ => okResp JVal.jnull,
    addNoteResp := errResp duplicateErrorText,
    updateNoteResp := okResp JVal.jnull,
    findNotesResp := fun _ => okResp (JVal.jlist [JVal.jnum 1414141414141]) }

/-- A sample store whose create reports the duplicate error and whose
search finds no note. -/
def dupRemoteNone : Remote :=
  { notesInfoResp := fun _ => okResp JVal.jnull,
    addNoteResp := errResp duplicateErrorText,
    updateNoteResp := okResp JVal.jnull,
    findNotesResp := fun _ => okResp (JVal.jlist []) }

/-! ## Theorems -/

/-! ### Decimal representation lemmas -/

theorem digitVal_digitChar {m : Nat} (h : m < 10) : digitVal (Nat.digitChar m) = m := by
  interval_cases m <;> decide

theorem isDigit_digitChar {m : Nat} (h : m < 10) : (Nat.digitChar m).isDigit = true := by
  interval_cases m <;> decide

theorem digitsVal_append_singleton (xs : Str) (c : Char) :
    digitsVal (xs ++ [c]) = 10 * digitsVal xs + digitVal c := by
  unfold digitsVal
  rw [List.foldl_append]
  rfl

theorem digitsVal_reprAux : ∀ f n : Nat, n < 10 ^ f → digitsVal (reprAux f n) = n := by
  intro f
  induction f with
  | zero =>
    intro n h
    interval_cases n
    rfl
  | succ f ih =>
    intro n h
    unfold reprAux
    by_cases h10 : n < 10
    · rw [if_pos h10]
      have : digitsVal [Nat.digitChar n] = digitVal (Nat.digitChar n) := by
        simp [digitsVal]
      rw [this, digitVal_digitChar h10]
    · rw [if_neg h10]
      rw [digitsVal_append_singleton]
      rw [ih (n / 10) (by
        rw [Nat.div_lt_iff_lt_mul (by norm_num : 0 < 10)]
        calc n < 10 ^ (f + 1) := h
          _ = 10 ^ f * 10 := by ring)]
      rw [digitVal_digitChar (Nat.mod_lt _ (by norm_num))]
      omega

theorem digitsVal_natRepr (n : Nat) : digitsVal (natRepr n) = n := by
  apply digitsVal_reprAux
  calc n < 10 ^ n := Nat.lt_pow_self (by norm_num) n
    _ ≤ 10 ^ (n + 1) := Nat.pow_le_pow_right (by norm_num) (Nat.le_succ n)

theorem isDigit_reprAux : ∀ f n : Nat, ∀ c ∈ reprAux f n, c.isDigit = true := by
  intro f
  induction f with
  | zero =>
    intro n c hc
    simp [reprAux] at hc
  | succ f ih =>
    intro n c hc
    unfold reprAux at hc
    by_cases h10 : n < 10
    · rw [if_pos h10] at hc
      simp at hc
      subst hc
      exact isDigit_digitChar h10
    · rw [if_neg h10] at hc
      rw [List.mem_append] at hc
      cases hc with
      | inl h => exact ih _ c h
      | inr h =>
        simp at h
        subst h
        exact isDigit_digitChar (Nat.mod_lt _ (by norm_num))

theorem natRepr_digits (n : Nat) : ∀ c ∈ natRepr n, c.isDigit = true :=
  isDigit_reprAux (n + 1) n

theorem natRepr_injective {m n : Nat} (h : natRepr m = natRepr n) : m = n := by
  have hm := digitsVal_natRepr m
  rw [h, digitsVal_natRepr] at hm
  omega

theorem natRepr_ne_zero_of_length {I : Nat} (h : (natRepr I).length = 13) : I ≠ 0 := by
  intro h0
  subst h0
  simp [natRepr, reprAux] at h

/-! ### Marker codec lemmas -/

/-- Decoding a text of the shape `t ++ " ^anki-" ++ d` with `d` a 13-digit
string removes exactly the 19 marker characters, leaving `t ++ " "`. -/
theorem endMarkerSplit_append (t d : Str) (hlen : d.length = 13)
    (hdig : ∀ c ∈ d, c.isDigit = true) :
    endMarkerSplit ((t ++ [ ' ' ]) ++ (("^anki-").toList ++ d))
      = (t ++ [ ' ' ], some (digitsVal d)) := by
  have hL : ((t ++ [ ' ' ]) ++ (("^anki-").toList ++ d)).length = t.length + 20 := by
    simp [hlen]
  have hsub : t.length + 20 - 19 = (t ++ [ ' ' ]).length := by simp
  have hdrop : ((t ++ [ ' ' ]) ++ (("^anki-").toList ++ d)).drop (t.length + 20 - 19)
      = ("^anki-").toList ++ d := by
    rw [hsub, List.drop_left]
  have htake : ((t ++ [ ' ' ]) ++ (("^anki-").toList ++ d)).take (t.length + 20 - 19)
      = t ++ [ ' ' ] := by
    rw [hsub, List.take_left]
  have hdrop6 : (("^anki-").toList ++ d).drop 6 = d := List.drop_left' rfl
  have hpre : (("^anki-").toList.isPrefixOf (("^anki-").toList ++ d)) = true := by
    simp
  have hall : (d.all fun c => c.isDigit) = true := by
    rw [List.all_eq_true]
    exact hdig
  unfold endMarkerSplit
  rw [hL, if_neg (by omega), hdrop, htake, hdrop6, hpre, hall]
  simp

/-- Decoding a text that does not end in a marker leaves it unchanged. -/
theorem endMarkerSplit_no_marker (s : Str) (hne : ¬ EndsWithAnkiMarker s) :
    endMarkerSplit s = (s, none) := by
  unfold endMarkerSplit
  by_cases hlen : s.length < 19
  · rw [if_pos hlen]
  · rw [if_neg hlen]
    have hcond : ((("^anki-").toList.isPrefixOf (s.drop (s.length - 19)))
        && ((s.drop (s.length - 19)).drop 6).all (fun c => c.isDigit)) = false := by
      by_contra hcontra
      rw [Bool.not_eq_false, Bool.and_eq_true] at hcontra
      obtain ⟨hpre, hall⟩ := hcontra
      apply hne
      rw [List.isPrefixOf_iff_prefix] at hpre
      obtain ⟨u, hu⟩ := hpre
      have hmlen : (s.drop (s.length - 19)).length = 19 := by
        rw [List.length_drop]
        omega
      have hulen : u.length = 13 := by
        have := congrArg List.length hu
        simp at this
        omega
      refine ⟨s.take (s.length - 19), u, ?_, hulen, ?_⟩
      · conv_lhs => rw [← List.take_append_drop (s.length - 19) s]
        rw [← hu, List.append_assoc]
      · intro c hc
        rw [List.all_eq_true] at hall
        have hdropu : (s.drop (s.length - 19)).drop 6 = u := by
          rw [← hu]
          exact List.drop_left' rfl
        rw [hdropu] at hall
        simpa using hall c hc
    rw [hcond]
    rfl

/-- Claim C1 (amended): encoding a 13-digit identifier `I` onto a line `t`
that does not already end with `I`'s marker appends ` ^anki-I`; decoding
the result returns the identifier `I` together with `t` plus one trailing
space (the space inserted by the encoder is not removed by the decoder);
decoding a text with no trailing `^anki-` marker of exactly 13 decimal
digits returns the text unchanged and no identifier. -/
theorem C1_marker_roundtrip_trailing_space :
    (∀ (t : Str) (I : Nat),
      (natRepr I).length = 13 →
      (' ' :: ankiTag I).isSuffixOf t = false →
      new_line_content t I = some (t ++ ' ' :: ankiTag I) ∧
      split_anki_id (t ++ ' ' :: ankiTag I) = (t ++ [ ' ' ], some I)) ∧
    (∀ s : Str, ¬ EndsWithAnkiMarker s → split_anki_id s = (s, none)) := by
  constructor
  · intro t I hlen hsuf
    have hI : I ≠ 0 := natRepr_ne_zero_of_length hlen
    constructor
    · unfold new_line_content
      rw [if_neg hI, hsuf]
      rfl
    · unfold split_anki_id
      have hshape : t ++ ' ' :: ankiTag I
          = (t ++ [ ' ' ]) ++ (("^anki-").toList ++ natRepr I) := by
        unfold ankiTag
        simp
      rw [hshape, endMarkerSplit_append t (natRepr I) hlen (natRepr_digits I),
        digitsVal_natRepr]
  · intro s hne
    unfold split_anki_id
    exact endMarkerSplit_no_marker s hne

/-- Witness for C1 (amended): encoding 1234567890123 onto `foo`, then
decoding, yields `foo ` and the identifier; a marker-free text decodes to
itself. -/
theorem C1_marker_roundtrip_trailing_space_witness :
    new_line_content (("foo").toList) 1234567890123
        = some ((("foo").toList) ++ ' ' :: ankiTag 1234567890123) ∧
    split_anki_id ((("foo").toList) ++ ' ' :: ankiTag 1234567890123)
        = ((("foo ").toList), some 1234567890123) ∧
    split_anki_id (("no marker here").toList) = ((("no marker here").toList), none) := by
  obtain ⟨h1, h2⟩ := C1_marker_roundtrip_trailing_space.1 (("foo").toList) 1234567890123
    (by decide) (by decide)
  refine ⟨h1, ?_, ?_⟩
  · rw [h2]
    rfl
  · apply C1_marker_roundtrip_trailing_space.2
    rintro ⟨p, d, hs, hlen, -⟩
    have h14 : (("no marker here").toList).length = 14 := by decide
    rw [hs] at h14
    simp [hlen] at h14

/-- Counterexample for C1 as stated: encoding 1234567890123 onto `foo` and
decoding does not return `foo` — it returns `foo ` with a trailing space. -/
theorem C1_marker_roundtrip_counterexample :
    (new_line_content (("foo").toList) 1234567890123).map split_anki_id
      = some ((("foo ").toList), some 1234567890123) ∧
    ("foo ").toList ≠ ("foo").toList :=
  ⟨by decide, by decide⟩

theorem isSubstr_correct {pat s : Str} : isSubstr pat s = true ↔ pat <:+: s := by
  induction s with
  | nil => simp [isSubstr, List.isEmpty_iff]
  | cons c rest ih => simp [isSubstr, ih, List.infix_cons_iff]

/-- Claim C7 (amended): encode is idempotent — re-encoding any identifier
onto encode's own output is a no-op — but encoding a different 13-digit
identifier `J` onto a line already carrying `I`'s marker appends `J`'s
marker after `I`'s instead of replacing it: the result still contains `I`'s
marker (two markers in all) and decodes to `J`. -/
theorem C7_encode_idempotent_appends :
    (∀ (line : Str) (I : Nat) (r : Str),
        new_line_content line I = some r → new_line_content r I = some r) ∧
    (∀ (line : Str) (I J : Nat),
        (natRepr I).length = 13 → (natRepr J).length = 13 → I ≠ J →
        (' ' :: ankiTag I).isSuffixOf line = true →
        new_line_content line J = some (line ++ ' ' :: ankiTag J) ∧
        isSubstr (ankiTag I) (line ++ ' ' :: ankiTag J) = true ∧
        split_anki_id (line ++ ' ' :: ankiTag J) = (line ++ [ ' ' ], some J)) := by
  constructor
  · intro line I r h
    unfold new_line_content at h ⊢
    by_cases hI : I = 0
    · rw [if_pos hI] at h
      exact absurd h (by simp)
    · rw [if_neg hI] at h ⊢
      by_cases hsuf : (' ' :: ankiTag I).isSuffixOf line = true
      · rw [hsuf] at h
        simp only [if_true] at h
        obtain rfl : line = r := by simpa using h
        rw [hsuf]
        rfl
      · rw [Bool.not_eq_true] at hsuf
        rw [hsuf] at h
        simp only [Bool.false_eq_true, if_false] at h
        obtain rfl : line ++ ' ' :: ankiTag I = r := by simpa using h
        have : (' ' :: ankiTag I).isSuffixOf (line ++ ' ' :: ankiTag I) = true := by
          rw [List.isSuffixOf_iff_suffix]
          exact List.suffix_append line (' ' :: ankiTag I)
        rw [this]
        rfl
  · intro line I J hlI hlJ hne hsufI
    have hJ : J ≠ 0 := natRepr_ne_zero_of_length hlJ
    have hsufJ : (' ' :: ankiTag J).isSuffixOf line = false := by
      by_contra hcontra
      rw [Bool.not_eq_false, List.isSuffixOf_iff_suffix] at hcontra
      rw [List.isSuffixOf_iff_suffix] at hsufI
      obtain ⟨u, hu⟩ := hsufI
      obtain ⟨v, hv⟩ := hcontra
      rw [← hu] at hv
      have hlen : u.length = v.length := by
        have h1 := congrArg List.length hv
        simp [ankiTag, hlI, hlJ] at h1
        omega
      obtain ⟨-, htag⟩ := List.append_inj hv.symm hlen
      have : natRepr I = natRepr J := by
        have h2 : ankiTag I = ankiTag J := by
          simpa using htag
        unfold ankiTag at h2
        exact (List.append_inj h2 rfl).2
      exact hne (natRepr_injective this)
    refine ⟨?_, ?_, ?_⟩
    · unfold new_line_content
      rw [if_neg hJ, hsufJ]
      rfl
    · rw [isSubstr_correct]
      rw [List.isSuffixOf_iff_suffix] at hsufI
      have h1 : ankiTag I <:+ ' ' :: ankiTag I := List.suffix_cons ' ' (ankiTag I)
      have h2 : ankiTag I <:+ line := h1.trans hsufI
      have h3 : ankiTag I <:+: line := h2.isInfix
      exact h3.trans (List.prefix_append line (' ' :: ankiTag J)).isInfix
    · unfold split_anki_id
      have hshape : line ++ ' ' :: ankiTag J
          = (line ++ [ ' ' ]) ++ (("^anki-").toList ++ natRepr J) := by
        unfold ankiTag
        simp
      rw [hshape, endMarkerSplit_append line (natRepr J) hlJ (natRepr_digits J),
        digitsVal_natRepr]

/-- Witness for C7 (amended): re-encoding 1234567890123 onto its own output
is a no-op, and encoding 2222222222222 onto a line carrying the marker for
1111111111111 appends a second marker. -/
theorem C7_encode_idempotent_appends_witness :
    new_line_content ((("foo").toList) ++ ' ' :: ankiTag 1234567890123) 1234567890123
        = some ((("foo").toList) ++ ' ' :: ankiTag 1234567890123) ∧
    new_line_content (("foo ^anki-1111111111111").toList) 2222222222222
        = some ((("foo ^anki-1111111111111").toList) ++ ' ' :: ankiTag 2222222222222) := by
  constructor
  · exact C7_encode_idempotent_appends.1 (("foo").toList) 1234567890123 _ (by decide)
  · exact (C7_encode_idempotent_appends.2 (("foo ^anki-1111111111111").toList)
      1111111111111 2222222222222 (by decide) (by decide) (by decide) (by decide)).1

/-- Counterexample for C7 as stated: encoding 2222222222222 onto a line
carrying the marker for 1111111111111 yields a line with two `^anki-`
markers — the old one is not replaced. -/
theorem C7_encode_replacement_counterexample :
    new_line_content (("foo ^anki-1111111111111").toList) 2222222222222
        = some (("foo ^anki-1111111111111 ^anki-2222222222222").toList) ∧
    countOcc (("foo ^anki-1111111111111 ^anki-2222222222222").toList) (("^anki-").toList)
        = 2 :=
  ⟨by decide, by decide⟩

/-- Claim C10: for a multi-line span whose last line ends with a marker,
decoding returns the identifier from that inline marker even when the
following line is itself a marker-only line; the following line is
consulted only when the last line carries no marker. -/
theorem C10_multiline_marker_precedence :
    (∀ (fileLines : List Str) (e I : Nat),
        (endMarkerSplit (fileLines.getD e [])).2 = some I →
        get_multiline_anki_id fileLines e = some I) ∧
    (∀ (fileLines : List Str) (e : Nat),
        (endMarkerSplit (fileLines.getD e [])).2 = none →
        fileLines.length > e + 1 →
        get_multiline_anki_id fileLines e = markerLineId (fileLines.getD (e + 1) [])) := by
  constructor
  · intro fileLines e I h
    unfold get_multiline_anki_id
    rw [h]
  · intro fileLines e h hlen
    unfold get_multiline_anki_id
    rw [h]
    simp [hlen]

/-- Witness for C10: with `a ^anki-1234567890123` as last span line and a
marker-only following line, the inline identifier wins; with a marker-free
last line, the following line's identifier is used. -/
theorem C10_multiline_marker_precedence_witness :
    get_multiline_anki_id [("a ^anki-1234567890123").toList, ("^anki-9999999999999").toList] 0
        = some 1234567890123 ∧
    get_multiline_anki_id [("b").toList, ("^anki-9999999999999").toList] 0
        = some 9999999999999 := by
  constructor
  · exact C10_multiline_marker_precedence.1
      [("a ^anki-1234567890123").toList, ("^anki-9999999999999").toList] 0 1234567890123
      (by decide)
  · have h := C10_multiline_marker_precedence.2
      [("b").toList, ("^anki-9999999999999").toList] 0 (by decide) (by decide)
    rw [h]
    decide

/-- Claim C3 (amended): when the store reports the decoded identifier's
record as missing (`notesInfo` result `[{}]`), the mankey sync issues
neither a create nor an update request and raises no error: it performs
only the `notesInfo` query, reports the stale note, and returns no
identifier. -/
theorem C3_stale_identifier_skips :
    ∀ (md : Str → Str) (rm : Remote) (deck q a model : Str) (id : Nat),
      id ≠ 0 →
      invokeM (rm.notesInfoResp id) = Except.ok (JVal.jlist [JVal.jobj []]) →
      import_flashcard md rm deck q a model (some id)
          = (Except.ok none, [Req.notesInfo id]) ∧
      hasAddNote (import_flashcard md rm deck q a model (some id)).2 = false ∧
      hasUpdateNote (import_flashcard md rm deck q a model (some id)).2 = false := by
  intro md rm deck q a model id hid hstale
  have h : import_flashcard md rm deck q a model (some id)
      = (Except.ok none, [Req.notesInfo id]) := by
    unfold import_flashcard
    simp only [Option.getD_some]
    rw [if_pos hid, hstale]
  refine ⟨h, ?_, ?_⟩ <;> rw [h] <;> rfl

/-- Witness for C3 (amended): the stale path of the sample store. -/
theorem C3_stale_identifier_skips_witness :
    import_flashcard (fun s => s) sampleRemote (("d").toList) (("q").toList) (("a").toList)
        (("Basic").toList) (some 1234567890123)
      = (Except.ok none, [Req.notesInfo 1234567890123]) :=
  (C3_stale_identifier_skips (fun s => s) sampleRemote (("d").toList) (("q").toList)
    (("a").toList) (("Basic").toList) 1234567890123 (by decide) rfl).1

/-- Counterexample for C3 as stated: on a stale identifier the code issues
no create request at all (the request list holds only the `notesInfo`
query) and yields no fresh identifier, instead of treating the card as a
create. -/
theorem C3_stale_identifier_counterexample :
    (import_flashcard (fun s => s) sampleRemote (("d").toList) (("q").toList) (("a").toList)
        (("Basic").toList) (some 1234567890123)).2 = [Req.notesInfo 1234567890123] ∧
    hasAddNote (import_flashcard (fun s => s) sampleRemote (("d").toList) (("q").toList)
        (("a").toList) (("Basic").toList) (some 1234567890123)).2 = false ∧
    (import_flashcard (fun s => s) sampleRemote (("d").toList) (("q").toList) (("a").toList)
        (("Basic").toList) (some 1234567890123)).1 = Except.ok none :=
  ⟨rfl, rfl, rfl⟩

/-- Claim C8 (amended): a single line containing the double-colon separator
(and not the triple one) that splits into exactly two parts is recognized
with the plain Basic card model; a line containing the triple-colon
separator is recognized with the reversible card model. -/
theorem C8_remnote_separator_models :
    ∀ (line q a : Str),
      (isSubstr ((":::").toList) line = true →
        splitOnSep line ((":::").toList) = [q, a] →
        remnote_line line
          = some (Except.ok (q, a, ("Basic (and reversed card)").toList))) ∧
      (isSubstr (("::").toList) line = true →
        isSubstr ((":::").toList) line = false →
        splitOnSep line (("::").toList) = [q, a] →
        remnote_line line = some (Except.ok (q, a, ("Basic").toList))) := by
  intro line q a
  constructor
  · intro h3 hsplit
    unfold remnote_line
    rw [h3, hsplit]
    simp
  · intro h2 h3 hsplit
    unfold remnote_line
    rw [h2, h3, hsplit]
    simp

/-- Witness for C8 (amended): `q ::: a` maps to the reversible model and
`q :: a` to the Basic model. -/
theorem C8_remnote_separator_models_witness :
    remnote_line (("q ::: a").toList)
        = some (Except.ok ((("q ").toList), ((" a").toList),
            ("Basic (and reversed card)").toList)) ∧
    remnote_line (("q :: a").toList)
        = some (Except.ok ((("q ").toList), ((" a").toList), ("Basic").toList)) := by
  constructor
  · exact (C8_remnote_separator_models (("q ::: a").toList) (("q ").toList)
      ((" a").toList)).1 (by decide) (by decide)
  · exact (C8_remnote_separator_models (("q :: a").toList) (("q ").toList)
      ((" a").toList)).2 (by decide) (by decide) (by decide)

/-- Counterexample for C8 as stated: the double-colon line `q :: a` is
recognized with the Basic model, not the reversible one. -/
theorem C8_remnote_separator_counterexample :
    remnote_line (("q :: a").toList)
        = some (Except.ok ((("q ").toList), ((" a").toList), ("Basic").toList)) ∧
    ("Basic").toList ≠ ("Basic (and reversed card)").toList :=
  ⟨rfl, by decide⟩

/-- Claim C9 (amended): the script's cloze recognizer excludes
definition-heuristic lines — no line satisfying `is_definition` is selected
by `MDFile.import_clozes`. -/
theorem C9_definition_excluded_from_script_cloze :
    ∀ (fileLines : List Str) (i : Nat),
      is_definition (fileLines.getD i []) = true → i ∉ mdClozeLines fileLines := by
  intro fileLines i hdef hmem
  unfold mdClozeLines at hmem
  have hsel := (List.mem_filter.mp hmem).2
  unfold mdClozeSelected at hsel
  rw [hdef] at hsel
  simp at hsel

/-- Witness for C9 (amended): the definition line `**word**: def` is not
selected by the script's cloze loop. -/
theorem C9_definition_excluded_from_script_cloze_witness :
    0 ∉ mdClozeLines [("**word**: def").toList] :=
  C9_definition_excluded_from_script_cloze [("**word**: def").toList] 0 (by decide)

/-- Counterexample for C9 as stated: the mankey cloze recognizer has no
definition exclusion — it turns the definition line `**word**: def` into a
cloze note and issues a create request for it. -/
theorem C9_definition_cloze_counterexample :
    is_definition (("**word**: def").toList) = true ∧
    (import_cloze_flashcards sampleRemote (("d").toList)
        [("**word**: def").toList]).1.events
      = [Event.remote 0 (Req.addClozeNote (("d").toList)
            (("\x7b\x7bc1::word\x7d\x7d: def").toList)),
         Event.persist [("**word**: def ^anki-1111111111111").toList]] :=
  ⟨by decide, rfl⟩

/-- The enumerate-style scan returns the first index satisfying the
predicate. -/
theorem findFromAux_first (p : Nat → Str → Bool) :
    ∀ (ls : List Str) (i k : Nat), k < ls.length →
      p (i + k) (ls.getD k []) = true →
      (∀ m, m < k → p (i + m) (ls.getD m []) = false) →
      findFromAux p ls i = some (i + k) := by
  intro ls
  induction ls with
  | nil =>
    intro i k hk
    simp at hk
  | cons l rest ih =>
    intro i k hk hp hmin
    unfold findFromAux
    cases k with
    | zero =>
      simp only [Nat.add_zero, List.getD_cons_zero] at hp
      rw [hp]
      simp
    | succ k0 =>
      have h0 : p i l = false := by simpa using hmin 0 (Nat.succ_pos k0)
      rw [h0]
      simp only [Bool.false_eq_true, if_false]
      have harg : p ((i + 1) + k0) (rest.getD k0 []) = true := by
        have h2 : i + (k0 + 1) = (i + 1) + k0 := by omega
        rw [show (l :: rest).getD (k0 + 1) [] = rest.getD k0 [] from rfl, h2] at hp
        exact hp
      have hmin' : ∀ m, m < k0 → p ((i + 1) + m) (rest.getD m []) = false := by
        intro m hm
        have hmm := hmin (m + 1) (by omega)
        have h2 : i + (m + 1) = (i + 1) + m := by omega
        rw [show (l :: rest).getD (m + 1) [] = rest.getD m [] from rfl, h2] at hmm
        exact hmm
      have hres := ih (i + 1) k0 (by simpa using hk) harg hmin'
      rw [hres]
      congr 1
      omega

/-- Claim C6 (amended): the answer body of a header flashcard ends
immediately before the first line after the answer start that begins with
`#` (at any heading depth, not only depth at most D) or is a marker-only
line, provided that boundary line lies strictly before the file's last
line; otherwise the answer extends through the file's last line, even when
that last line is itself such a heading — as in the claim's five-line
example, whose extracted answer is `A text\n## Next`. -/
theorem C6_answer_end_boundary :
    ∀ (fileLines : List Str) (questionLevel answerStartLine : Nat),
      fileLines ≠ [] →
      ((∀ j, answerStartLine < j → j < fileLines.length - 1 →
          (startsWithHash (fileLines.getD j []) || isMarkerLine (fileLines.getD j []))
            = false) →
        get_answer_end_line fileLines questionLevel answerStartLine
          = some (fileLines.length - 1)) ∧
      (∀ iStar, answerStartLine < iStar → iStar < fileLines.length - 1 →
        (startsWithHash (fileLines.getD iStar []) || isMarkerLine (fileLines.getD iStar []))
          = true →
        (∀ j, answerStartLine < j → j < iStar →
          (startsWithHash (fileLines.getD j []) || isMarkerLine (fileLines.getD j []))
            = false) →
        get_answer_end_line fileLines questionLevel answerStartLine = some (iStar - 1)) := by
  intro fileLines questionLevel answerStartLine hne
  have hlen0 : 0 < fileLines.length := List.length_pos.mpr hne
  constructor
  · intro hno
    have happ := findFromAux_first
      (fun i l => (i == fileLines.length - 1)
        || (decide (answerStartLine < i) && (startsWithHash l || isMarkerLine l)))
      fileLines 0 (fileLines.length - 1) (by omega)
      (by simp)
      (by
        intro m hm
        simp only [Nat.zero_add]
        have h1 : (m == fileLines.length - 1) = false := by
          rw [beq_eq_false_iff_ne]
          omega
        rw [h1, Bool.false_or]
        by_cases h2 : answerStartLine < m
        · rw [hno m h2 (by omega)]
          simp
        · rw [decide_eq_false h2]
          simp)
    unfold get_answer_end_line
    rw [happ]
    simp
  · intro iStar h1 h2 hb hmin
    have happ := findFromAux_first
      (fun i l => (i == fileLines.length - 1)
        || (decide (answerStartLine < i) && (startsWithHash l || isMarkerLine l)))
      fileLines 0 iStar (by omega)
      (by
        simp only [Nat.zero_add]
        rw [hb, decide_eq_true h1]
        simp)
      (by
        intro m hm
        simp only [Nat.zero_add]
        have hmn : (m == fileLines.length - 1) = false := by
          rw [beq_eq_false_iff_ne]
          omega
        rw [hmn, Bool.false_or]
        by_cases h3 : answerStartLine < m
        · rw [hmin m h3 (by omega)]
          simp
        · rw [decide_eq_false h3]
          simp)
    unfold get_answer_end_line
    rw [happ]
    have hiStar : (0 + iStar == fileLines.length - 1) = false := by
      rw [beq_eq_false_iff_ne]
      omega
    simp [hiStar]
    intro h
    omega

/-- Witness for C6 (amended): with a sixth line after `## Next` the answer
stops before the heading; in the claim's five-line example the heading is
the last line and is included. -/
theorem C6_answer_end_boundary_witness :
    get_answer_end_line [("## Question").toList, ("Q text").toList, ("## Answer").toList,
        ("A text").toList, ("## Next").toList, ("x").toList] 2 3 = some 3 ∧
    get_answer_end_line [("## Question").toList, ("Q text").toList, ("## Answer").toList,
        ("A text").toList, ("## Next").toList] 2 3 = some 4 := by
  constructor
  · exact (C6_answer_end_boundary [("## Question").toList, ("Q text").toList,
      ("## Answer").toList, ("A text").toList, ("## Next").toList, ("x").toList] 2 3
      (by decide)).2 4 (by omega) (by decide) (by decide)
      (by
        intro j hj1 hj2
        omega)
  · exact (C6_answer_end_boundary [("## Question").toList, ("Q text").toList,
      ("## Answer").toList, ("A text").toList, ("## Next").toList] 2 3
      (by decide)).1
      (by
        intro j hj1 hj2
        simp only [List.length_cons, List.length_nil] at hj2
        omega)

/-- Counterexample for C6 as stated: on the claim's exact five-line
document the extracted answer is `A text\n## Next` — the `## Next` heading
on the last line is included, not excluded. -/
theorem C6_header_boundary_counterexample :
    (mkHeaderQA [("## Question").toList, ("Q text").toList, ("## Answer").toList,
        ("A text").toList, ("## Next").toList] 0).map
      (fun h => (h.questionRaw, h.answerRaw, h.answerEndLine))
      = some ((("Q text").toList), ("A text\n## Next").toList, 4) ∧
    ("A text\n## Next").toList ≠ ("A text").toList :=
  ⟨by decide, by decide⟩

/-! ### String replacement lemmas -/

theorem isPrefixOf_head_ne {pat : Str} {c0 x : Char} {l : Str} (hpat : pat.head? = some c0)
    (hx : x ≠ c0) : pat.isPrefixOf (x :: l) = false := by
  rw [Bool.eq_false_iff]
  intro hcontra
  rw [List.isPrefixOf_iff_prefix] at hcontra
  obtain ⟨t, ht⟩ := hcontra
  cases pat with
  | nil => simp at hpat
  | cons p ps =>
    have hp : p = c0 := by simpa using hpat
    have hpx : p = x := by
      have := congrArg List.head? ht
      simpa using this
    exact hx (by rw [← hpx, hp])

theorem replaceFirst_append_noHead {pat : Str} {c0 : Char} (hpat : pat.head? = some c0)
    (rep : Str) : ∀ (a b : Str), (∀ c ∈ a, c ≠ c0) →
      replaceFirst (a ++ b) pat rep = a ++ replaceFirst b pat rep := by
  intro a
  induction a with
  | nil => intro b _; rfl
  | cons x xs ih =>
    intro b ha
    have hx : x ≠ c0 := ha x (by simp)
    simp only [List.cons_append]
    show (if pat.isPrefixOf (x :: (xs ++ b)) then _ else x :: replaceFirst (xs ++ b) pat rep)
        = x :: (xs ++ replaceFirst b pat rep)
    rw [isPrefixOf_head_ne hpat hx]
    simp only [Bool.false_eq_true, if_false]
    rw [ih b (fun c hc => ha c (by simp [hc]))]

theorem replaceFirst_at_start (p : Char) (ps rest rep : Str) :
    replaceFirst ((p :: ps) ++ rest) (p :: ps) rep = rep ++ rest := by
  have hpre : (p :: ps).isPrefixOf ((p :: ps) ++ rest) = true := by
    rw [List.isPrefixOf_iff_prefix]
    exact List.prefix_append _ _
  simp only [List.cons_append]
  show (if (p :: ps).isPrefixOf (p :: (ps ++ rest)) then
      rep ++ (p :: (ps ++ rest)).drop (p :: ps).length else _) = rep ++ rest
  simp only [List.cons_append] at hpre
  rw [hpre]
  simp only [if_true]
  congr 1
  show ((p :: ps) ++ rest).drop (p :: ps).length = rest
  exact List.drop_left _ _

theorem countOccAux_append_skip (pat : Str) :
    ∀ (a b : Str), countOccAux pat (a ++ b) a.length = countOccAux pat b 0 := by
  intro a
  induction a with
  | nil => intro b; rfl
  | cons x xs ih =>
    intro b
    simp only [List.cons_append, List.length_cons]
    show countOccAux pat (xs ++ b) xs.length = _
    exact ih b

theorem countOccAux_append_noHead {pat : Str} {c0 : Char} (hpat : pat.head? = some c0) :
    ∀ (a b : Str), (∀ c ∈ a, c ≠ c0) →
      countOccAux pat (a ++ b) 0 = countOccAux pat b 0 := by
  intro a
  induction a with
  | nil => intro b _; rfl
  | cons x xs ih =>
    intro b ha
    have hx : x ≠ c0 := ha x (by simp)
    simp only [List.cons_append]
    show (if pat.isPrefixOf (x :: (xs ++ b)) then _ else countOccAux pat (xs ++ b) 0)
        = countOccAux pat b 0
    rw [isPrefixOf_head_ne hpat hx]
    simp only [Bool.false_eq_true, if_false]
    exact ih b (fun c hc => ha c (by simp [hc]))

theorem countOccAux_double_star (rest : Str) :
    countOccAux ('*' :: '*' :: []) ('*' :: '*' :: rest) 0
      = 1 + countOccAux ('*' :: '*' :: []) rest 0 := by
  have hc : (('*' :: '*' :: []) : Str).isPrefixOf ('*' :: '*' :: rest) = true := by
    simp [List.isPrefixOf_cons₂]
  show (if (('*' :: '*' :: []) : Str).isPrefixOf ('*' :: '*' :: rest) then
      1 + countOccAux ('*' :: '*' :: []) ('*' :: rest) ((('*' :: '*' :: []) : Str).length - 1)
    else countOccAux ('*' :: '*' :: []) ('*' :: rest) 0)
    = 1 + countOccAux ('*' :: '*' :: []) rest 0
  rw [hc]
  rfl

theorem star_free_of_digits {c : Char} (h : c.isDigit = true) : c ≠ '*' := by
  intro heq
  rw [heq] at h
  exact absurd h (by decide)

theorem no_star_append {a b : Str} (ha : ∀ c ∈ a, c ≠ '*') (hb : ∀ c ∈ b, c ≠ '*') :
    ∀ c ∈ a ++ b, c ≠ '*' := by
  intro c hc
  rcases List.mem_append.mp hc with h | h
  · exact ha c h
  · exact hb c h

theorem starPat_head : ('*' :: '*' :: ([] : Str)).head? = some '*' := rfl

theorem double_star_toList : (("**").toList : Str) = '*' :: '*' :: [] := by decide

theorem countOcc_mkClozePairs :
    ∀ (pairs : List (Str × Str)) (pre : Str), (∀ c ∈ pre, c ≠ '*') →
      (∀ p ∈ pairs, (∀ c ∈ p.1, c ≠ '*') ∧ (∀ c ∈ p.2, c ≠ '*')) →
      countOcc (pre ++ mkClozePairs pairs) (("**").toList) = 2 * pairs.length := by
  intro pairs
  induction pairs with
  | nil =>
    intro pre hpre _
    unfold countOcc
    rw [double_star_toList, countOccAux_append_noHead starPat_head pre _ hpre]
    rfl
  | cons p ps ih =>
    intro pre hpre hps
    obtain ⟨b, sep⟩ := p
    have hb : ∀ c ∈ b, c ≠ '*' := (hps (b, sep) (by simp)).1
    have hsep : ∀ c ∈ sep, c ≠ '*' := (hps (b, sep) (by simp)).2
    have hps' : ∀ q ∈ ps, (∀ c ∈ q.1, c ≠ '*') ∧ (∀ c ∈ q.2, c ≠ '*') :=
      fun q hq => hps q (by simp [hq])
    unfold countOcc
    rw [double_star_toList, countOccAux_append_noHead starPat_head pre _ hpre]
    have hassoc : mkClozePairs ((b, sep) :: ps)
        = '*' :: '*' :: (b ++ ('*' :: '*' :: (sep ++ mkClozePairs ps))) := by
      show ("**").toList ++ b ++ ("**").toList ++ sep ++ mkClozePairs ps = _
      rw [double_star_toList]
      simp [List.append_assoc]
    rw [hassoc, countOccAux_double_star,
      countOccAux_append_noHead starPat_head b _ hb, countOccAux_double_star,
      countOccAux_append_noHead starPat_head sep _ hsep]
    have hih := ih [] (by simp) hps'
    unfold countOcc at hih
    rw [double_star_toList] at hih
    simp only [List.nil_append] at hih
    rw [hih]
    simp only [List.length_cons]
    ring

theorem clozeReplaceLoop_spec :
    ∀ (pairs : List (Str × Str)) (i : Nat) (done : Str),
      (∀ c ∈ done, c ≠ '*') →
      (∀ p ∈ pairs, (∀ c ∈ p.1, c ≠ '*') ∧ (∀ c ∈ p.2, c ≠ '*')) →
      clozeReplaceLoop pairs.length i (done ++ mkClozePairs pairs)
        = done ++ clozeExpected i pairs := by
  intro pairs
  induction pairs with
  | nil =>
    intro i done _ _
    simp [mkClozePairs, clozeExpected, clozeReplaceLoop]
  | cons p ps ih =>
    intro i done hdone hps
    obtain ⟨b, sep⟩ := p
    have hb : ∀ c ∈ b, c ≠ '*' := (hps (b, sep) (by simp)).1
    have hsep : ∀ c ∈ sep, c ≠ '*' := (hps (b, sep) (by simp)).2
    have hps' : ∀ q ∈ ps, (∀ c ∈ q.1, c ≠ '*') ∧ (∀ c ∈ q.2, c ≠ '*') :=
      fun q hq => hps q (by simp [hq])
    have hbrace : ∀ c ∈ (("\x7b\x7bc").toList : Str), c ≠ '*' := by decide
    have hcolon : ∀ c ∈ (("::").toList : Str), c ≠ '*' := by decide
    have hdig : ∀ c ∈ natRepr (i + 1), c ≠ '*' :=
      fun c hc => star_free_of_digits (natRepr_digits (i + 1) c hc)
    have hopenTag : ∀ c ∈ ("\x7b\x7bc").toList ++ natRepr (i + 1) ++ ("::").toList,
        c ≠ '*' := no_star_append (no_star_append hbrace hdig) hcolon
    have hcloseTag : ∀ c ∈ (("\x7d\x7d").toList : Str), c ≠ '*' := by decide
    show clozeReplaceLoop (ps.length + 1) i _ = _
    unfold clozeReplaceLoop
    rw [double_star_toList]
    have hmkassoc : done ++ mkClozePairs ((b, sep) :: ps)
        = done ++ (('*' :: '*' :: []) ++ (b ++ (('*' :: '*' :: [])
            ++ (sep ++ mkClozePairs ps)))) := by
      show done ++ (("**").toList ++ b ++ ("**").toList ++ sep ++ mkClozePairs ps) = _
      rw [double_star_toList]
      simp [List.append_assoc]
    rw [hmkassoc]
    rw [replaceFirst_append_noHead starPat_head _ done _ hdone]
    rw [show ('*' :: '*' :: ([] : Str)) = '*' :: [ '*' ] from rfl]
    rw [replaceFirst_at_start '*' [ '*' ] _ _]
    have hstep2 : replaceFirst
        (done ++ ((("\x7b\x7bc").toList ++ natRepr (i + 1) ++ ("::").toList)
          ++ (b ++ ('*' :: [ '*' ] ++ (sep ++ mkClozePairs ps)))))
        ('*' :: [ '*' ]) (("\x7d\x7d").toList)
        = done ++ ((("\x7b\x7bc").toList ++ natRepr (i + 1) ++ ("::").toList)
          ++ (b ++ ((("\x7d\x7d").toList) ++ (sep ++ mkClozePairs ps)))) := by
      rw [replaceFirst_append_noHead starPat_head _ done _ hdone,
        replaceFirst_append_noHead starPat_head _ _ _ hopenTag,
        replaceFirst_append_noHead starPat_head _ b _ hb,
        replaceFirst_at_start '*' [ '*' ] _ _]
    rw [hstep2]
    have hre : done ++ ((("\x7b\x7bc").toList ++ natRepr (i + 1) ++ ("::").toList)
          ++ (b ++ ((("\x7d\x7d").toList) ++ (sep ++ mkClozePairs ps))))
        = (done ++ (("\x7b\x7bc").toList ++ natRepr (i + 1) ++ ("::").toList)
            ++ b ++ ("\x7d\x7d").toList ++ sep) ++ mkClozePairs ps := by
      simp [List.append_assoc]
    rw [hre]
    have hdone' : ∀ c ∈ done ++ (("\x7b\x7bc").toList ++ natRepr (i + 1) ++ ("::").toList)
        ++ b ++ ("\x7d\x7d").toList ++ sep, c ≠ '*' :=
      no_star_append (no_star_append (no_star_append (no_star_append hdone hopenTag) hb)
        hcloseTag) hsep
    rw [ih (i + 1) _ hdone' hps']
    show _ = done ++ (("\x7b\x7bc").toList ++ natRepr (i + 1) ++ ("::").toList
      ++ b ++ ("\x7d\x7d").toList ++ sep ++ clozeExpected (i + 1) ps)
    simp [List.append_assoc]

/-- Claim C5 (amended): in `Cloze.format_clozue`'s replacement loop the
k-th doubled-asterisk pair, counted left to right, becomes the
cloze-deletion wrapper numbered k — for any number of pairs, with no
8-pair bound.  (The mankey `clozify`-based loop achieves this only for up
to 5 pairs: its pattern table is missing `{` entries from the 6th pair on
and runs out after the 28th asterisk.) -/
theorem C5_cloze_numbering :
    ∀ (pre : Str) (pairs : List (Str × Str)),
      (∀ c ∈ pre, c ≠ '*') →
      (∀ p ∈ pairs, (∀ c ∈ p.1, c ≠ '*') ∧ (∀ c ∈ p.2, c ≠ '*')) →
      clozeReplace (pre ++ mkClozePairs pairs) = pre ++ clozeExpected 0 pairs := by
  intro pre pairs hpre hpairs
  unfold clozeReplace
  rw [countOcc_mkClozePairs pairs pre hpre hpairs]
  rw [show 2 * pairs.length / 2 = pairs.length by omega]
  exact clozeReplaceLoop_spec pairs 0 pre hpre hpairs

/-- Witness for C5 (amended): the specification's own example, with the
wrappers numbered 1 and 2 in left-to-right order. -/
theorem C5_cloze_numbering_witness :
    clozeReplace (("The **capital** of France is **Paris**").toList)
      = ("The \x7b\x7bc1::capital\x7d\x7d of France is \x7b\x7bc2::Paris\x7d\x7d").toList := by
  have h := C5_cloze_numbering (("The ").toList)
    [((("capital").toList), (" of France is ").toList), ((("Paris").toList), ([] : Str))]
    (by decide) (by decide)
  have heq : ("The ").toList ++ mkClozePairs
      [((("capital").toList), (" of France is ").toList), ((("Paris").toList), ([] : Str))]
      = ("The **capital** of France is **Paris**").toList := by decide
  rw [heq] at h
  rw [h]
  decide

/-- Counterexample for C5 as stated: on a line with six doubled-asterisk
pairs the mankey clozify-based replacement mangles the sixth pair into
`{c6::}l}{c7::` instead of `{{c6::l}}` — the claimed numbering does not
hold up to 8 pairs. -/
theorem C5_cloze_numbering_counterexample :
    mankeyClozeLine (("a **b** c **d** e **f** g **h** i **j** k **l** m").toList)
      = some (("a \x7b\x7bc1::b\x7d\x7d c \x7b\x7bc2::d\x7d\x7d e \x7b\x7bc3::f\x7d\x7d g \x7b\x7bc4::h\x7d\x7d i \x7b\x7bc5::j\x7d\x7d k \x7bc6::\x7dl\x7d\x7bc7:: m").toList) ∧
    ("a \x7b\x7bc1::b\x7d\x7d c \x7b\x7bc2::d\x7d\x7d e \x7b\x7bc3::f\x7d\x7d g \x7b\x7bc4::h\x7d\x7d i \x7b\x7bc5::j\x7d\x7d k \x7bc6::\x7dl\x7d\x7bc7:: m").toList
      ≠ ("a \x7b\x7bc1::b\x7d\x7d c \x7b\x7bc2::d\x7d\x7d e \x7b\x7bc3::f\x7d\x7d g \x7b\x7bc4::h\x7d\x7d i \x7b\x7bc5::j\x7d\x7d k \x7b\x7bc6::l\x7d\x7d m").toList :=
  ⟨by decide, by decide⟩

/-- Claim C4: when a create's response carries the distinguished
duplicate-error text, the duplicate error is never surfaced to the caller;
instead a store-side search keyed by the question text runs, the single
matching identifier is returned when exactly one match exists, and a hard
(ValueError) error is raised when the search returns zero or two-or-more
matches. -/
theorem C4_duplicate_fallback :
    ∀ (rm : Remote) (deck q a : Str) (ms : List JVal),
      invoke rm.addNoteResp = Except.error InvokeErr.duplicateNote →
      invoke (rm.findNotesResp q) = Except.ok (JVal.jlist ms) →
      (∀ m, ms = [JVal.jnum m] →
        import_question_answer rm deck q a none
          = (Except.ok (some m),
             [Req.addNote deck q a (("Basic").toList), Req.findNotes q])) ∧
      (ms.length ≠ 1 →
        import_question_answer rm deck q a none
          = (Except.error (InvokeErr.valueErr
              ((("Expected 1 match, got ").toList) ++ natRepr ms.length)),
             [Req.addNote deck q a (("Basic").toList), Req.findNotes q])) ∧
      (import_question_answer rm deck q a none).1
        ≠ Except.error InvokeErr.duplicateNote := by
  intro rm deck q a ms hadd hfind
  have hred : import_question_answer rm deck q a none
      = ((find_question_answer rm q).1.map some,
         Req.addNote deck q a (("Basic").toList) :: (find_question_answer rm q).2) := by
    unfold import_question_answer
    rw [hadd]
    rfl
  have hfq : find_question_answer rm q
      = (if ms.length == 1 then
           match ms.headD JVal.jnull with
           | JVal.jnum n => Except.ok n
           | _ => Except.error (InvokeErr.valueErr (("match is not a note id").toList))
         else Except.error (InvokeErr.valueErr
           ((("Expected 1 match, got ").toList) ++ natRepr ms.length)),
         [Req.findNotes q]) := by
    unfold find_question_answer
    rw [hfind]
  refine ⟨?_, ?_, ?_⟩
  · intro m hm
    subst hm
    rw [hred, hfq]
    rfl
  · intro hlen
    rw [hred, hfq]
    have : (ms.length == 1) = false := by
      simpa using hlen
    rw [this]
    rfl
  · rw [hred, hfq]
    by_cases h1 : (ms.length == 1) = true
    · rw [h1]
      simp only [if_true]
      cases ms.headD JVal.jnull <;> simp [Except.map]
    · rw [Bool.not_eq_true] at h1
      rw [h1]
      simp [Except.map]

/-- Witness for C4: a duplicate-reporting store with exactly one search
match returns that identifier; with zero matches it raises the hard
`Expected 1 match` error; in neither case does the duplicate error reach
the caller. -/
theorem C4_duplicate_fallback_witness :
    import_question_answer dupRemoteOne (("d").toList) (("q").toList) (("a").toList) none
      = (Except.ok (some 1414141414141),
         [Req.addNote (("d").toList) (("q").toList) (("a").toList) (("Basic").toList),
          Req.findNotes (("q").toList)]) ∧
    import_question_answer dupRemoteNone (("d").toList) (("q").toList) (("a").toList) none
      = (Except.error (InvokeErr.valueErr
          ((("Expected 1 match, got ").toList) ++ natRepr 0)),
         [Req.addNote (("d").toList) (("q").toList) (("a").toList) (("Basic").toList),
          Req.findNotes (("q").toList)]) := by
  constructor
  · exact (C4_duplicate_fallback dupRemoteOne (("d").toList) (("q").toList) (("a").toList)
      [JVal.jnum 1414141414141] rfl rfl).1 1414141414141 rfl
  · exact (C4_duplicate_fallback dupRemoteNone (("d").toList) (("q").toList) (("a").toList)
      [] rfl rfl).2.1 (by decide)

/-! ### Trace lemmas -/

theorem getD_append_left {α : Type} (d : α) :
    ∀ (a b : List α) (i : Nat), i < a.length → (a ++ b).getD i d = a.getD i d := by
  intro a
  induction a with
  | nil =>
    intro b i h
    simp at h
  | cons x xs ih =>
    intro b i h
    cases i with
    | zero => rfl
    | succ n =>
      simp only [List.cons_append, List.getD_cons_succ]
      exact ih b n (by simpa using h)

theorem getD_append_right {α : Type} (d : α) :
    ∀ (a b : List α) (i : Nat), a.length ≤ i →
      (a ++ b).getD i d = b.getD (i - a.length) d := by
  intro a
  induction a with
  | nil =>
    intro b i h
    simp
  | cons x xs ih =>
    intro b i h
    cases i with
    | zero => simp at h
    | succ n =>
      simp only [List.cons_append, List.getD_cons_succ, List.length_cons]
      rw [ih b n (by simpa using h)]
      congr 1
      omega

theorem getD_mem {α : Type} (d : α) :
    ∀ (l : List α) (i : Nat), i < l.length → l.getD i d ∈ l := by
  intro l
  induction l with
  | nil =>
    intro i h
    simp at h
  | cons x xs ih =>
    intro i h
    cases i with
    | zero => simp
    | succ n =>
      simp only [List.getD_cons_succ]
      exact List.mem_cons_of_mem x (ih n (by simpa using h))

theorem tags_map_remote (c : Nat) (rs : List Req) :
    ∀ e ∈ rs.map (Event.remote c), cardTag e = some c := by
  intro e he
  rw [List.mem_map] at he
  obtain ⟨r, -, rfl⟩ := he
  rfl

/-- A block-structured trace persists between the remote calls of any two
distinct cards. -/
theorem goodTrace_perCardPersist : ∀ (c : Nat) (evs : List Event),
    GoodTrace c evs → PerCardPersist evs := by
  intro c evs hgt
  induction hgt with
  | tail c rs hall =>
    intro i hi j hj hij hsi hsj hne
    exfalso
    apply hne
    rw [hall _ (getD_mem (Event.persist []) rs i hi),
      hall _ (getD_mem (Event.persist []) rs j hj)]
  | block c rs l tl hall htl ih =>
    intro i hi j hj hij hsi hsj hne
    simp only [List.length_append, List.length_cons] at hi hj
    by_cases hjL : j < rs.length
    · exfalso
      apply hne
      rw [getD_append_left _ rs _ i (by omega), getD_append_left _ rs _ j hjL,
        hall _ (getD_mem (Event.persist []) rs i (by omega)),
        hall _ (getD_mem (Event.persist []) rs j hjL)]
    · by_cases hjeq : j = rs.length
      · exfalso
        rw [hjeq, getD_append_right _ rs _ rs.length (Nat.le_refl _)] at hsj
        simp [cardTag] at hsj
      · have hjgt : rs.length < j := by omega
        by_cases hiL : i < rs.length
        · refine ⟨rs.length, by omega, hiL, ?_⟩
          rw [getD_append_right _ rs _ rs.length (Nat.le_refl _)]
          simp [isPersistEv]
        · by_cases hieq : i = rs.length
          · exfalso
            rw [hieq, getD_append_right _ rs _ rs.length (Nat.le_refl _)] at hsi
            simp [cardTag] at hsi
          · have higt : rs.length < i := by omega
            have hgi : (rs ++ Event.persist l :: tl).getD i (Event.persist [])
                = tl.getD (i - rs.length - 1) (Event.persist []) := by
              rw [getD_append_right _ rs _ i (by omega),
                show i - rs.length = (i - rs.length - 1) + 1 by omega,
                List.getD_cons_succ]
              congr 1
            have hgj : (rs ++ Event.persist l :: tl).getD j (Event.persist [])
                = tl.getD (j - rs.length - 1) (Event.persist []) := by
              rw [getD_append_right _ rs _ j (by omega),
                show j - rs.length = (j - rs.length - 1) + 1 by omega,
                List.getD_cons_succ]
              congr 1
            rw [hgi] at hsi hne
            rw [hgj] at hsj hne
            obtain ⟨k, hk1, hk2, hk3⟩ := ih (i - rs.length - 1) (by omega)
              (j - rs.length - 1) (by omega) (by omega) hsi hsj hne
            refine ⟨k + rs.length + 1, by omega, by omega, ?_⟩
            rw [getD_append_right _ rs _ _ (by omega),
              show k + rs.length + 1 - rs.length = k + 1 by omega,
              List.getD_cons_succ]
            exact hk3

/-- The mankey cloze import loop produces a block-structured trace: its
remote calls are grouped per card and each processed card's block ends with
a `write_file` flush. -/
theorem importClozeFlashcardsAux_trace (rm : Remote) (deck : Str) :
    ∀ (xs : List (Nat × Str)) (st : ClozeRunState),
      ∃ Δ, (importClozeFlashcardsAux rm deck xs st).1.events = st.events ++ Δ ∧
        GoodTrace st.card Δ := by
  intro xs
  induction xs with
  | nil =>
    intro st
    exact ⟨[], by simp [importClozeFlashcardsAux], GoodTrace.tail _ [] (by simp)⟩
  | cons p rest ih =>
    intro st
    obtain ⟨i, line⟩ := p
    unfold importClozeFlashcardsAux
    by_cases hg : isSubstr (("**").toList) line = true
    · rw [if_pos hg]
      cases hml : mankeyClozeLine line with
      | none =>
        exact ⟨[], by simp, GoodTrace.tail _ [] (by simp)⟩
      | some newOut =>
        cases himp : (import_cloze_flashcard rm deck
            (split_anki_id (if (("-").toList).isPrefixOf (trim newOut)
                || (("#").toList).isPrefixOf (trim newOut) then
              trim ((trim newOut).drop 1) else trim newOut)).1
            (split_anki_id (if (("-").toList).isPrefixOf (trim newOut)
                || (("#").toList).isPrefixOf (trim newOut) then
              trim ((trim newOut).drop 1) else trim newOut)).2).1 with
        | error e =>
          refine ⟨(import_cloze_flashcard rm deck
              (split_anki_id (if (("-").toList).isPrefixOf (trim newOut)
                  || (("#").toList).isPrefixOf (trim newOut) then
                trim ((trim newOut).drop 1) else trim newOut)).1
              (split_anki_id (if (("-").toList).isPrefixOf (trim newOut)
                  || (("#").toList).isPrefixOf (trim newOut) then
                trim ((trim newOut).drop 1) else trim newOut)).2).2.map
              (Event.remote st.card), ?_, ?_⟩
          · simp only [hml, himp]
          · exact GoodTrace.tail _ _ (tags_map_remote st.card _)
        | ok newId =>
          obtain ⟨Δ', hΔ', hgt'⟩ := ih _
          refine ⟨(import_cloze_flashcard rm deck
              (split_anki_id (if (("-").toList).isPrefixOf (trim newOut)
                  || (("#").toList).isPrefixOf (trim newOut) then
                trim ((trim newOut).drop 1) else trim newOut)).1
              (split_anki_id (if (("-").toList).isPrefixOf (trim newOut)
                  || (("#").toList).isPrefixOf (trim newOut) then
                trim ((trim newOut).drop 1) else trim newOut)).2).2.map
              (Event.remote st.card)
              ++ Event.persist (if newId.getD 0 ≠ 0 then
                  st.fileLines.set i (st.fileLines.getD i [] ++ ' ' :: ankiTag (newId.getD 0))
                else st.fileLines) :: Δ', ?_, ?_⟩
          · simp only [hml, himp]
            rw [hΔ']
            simp [List.append_assoc]
          · exact GoodTrace.block st.card _ _ Δ' (tags_map_remote st.card _) hgt'
    · rw [if_neg hg]
      exact ih st

/-- Claim C2 (amended): the mankey package's cloze importer persists
per-card — in its trace, between the remote calls of any two distinct
flashcards the full line buffer is flushed (`write_file` after every
imported cloze line); the `update_flashcards.py` script instead batches: it
rewrites only its in-memory buffer per card and writes the file once per
document in `export_file`. -/
theorem C2_per_card_persist_mankey :
    ∀ (rm : Remote) (deck : Str) (fileLines : List Str),
      PerCardPersist (import_cloze_flashcards rm deck fileLines).1.events := by
  intro rm deck fileLines
  obtain ⟨Δ, hΔ, hgt⟩ := importClozeFlashcardsAux_trace rm deck fileLines.enum
    { fileLines := fileLines, output := fileLines, card := 0, events := [] }
  unfold import_cloze_flashcards
  rw [hΔ]
  simp only [List.nil_append]
  exact goodTrace_perCardPersist 0 Δ hgt

/-- Counterexample for C2 as stated: a two-cloze document processed by the
script issues the second card's create request before any flush — the only
persist event is the final `export_file` — so persistence is batched at end
of file, not per-card.  (The document triggers no other recognizer.) -/
theorem C2_per_card_persist_counterexample :
    ¬ PerCardPersist ((mdProcessClozeFile sampleRemote (fun s => s) (("d").toList)
        { deckNames := [("d").toList], mediaFiles := [] }
        [("x **y** z").toList, ("u **v** w").toList]).1.events) ∧
    otherRecognizersFire [("x **y** z").toList, ("u **v** w").toList] = false := by
  constructor
  · intro h
    obtain ⟨k, hk1, hk2, -⟩ :=
      h 0 (by decide) 1 (by decide) (by decide) (by decide) (by decide) (by decide)
    omega
  · decide

end Mankey
